import Mathlib

/-!
Verification development for the SQL-to-SPARQL core of the
visualize-replacement repository (sparql-proxy/src/sql/parser.py,
sparql-proxy/src/sql/translator.py, sparql-proxy/src/sparql/namespaces.py).

The Python code is shallowly embedded: pure string-building functions become
Lean functions on `String`; Python exceptions become `Except String`;
Python `None`-able fields become `Option`.  The parser consumes the token
stream produced by the external `sqlparse` library; that library boundary is
embedded as the inductive `Tok` type, whose group constructors carry the
results of sqlparse's `value` / `get_real_name()` / `get_alias()` accessors
as data, and `Statement` carries the result of `get_type()`.  Concrete test
statements are embedded as the token trees sqlparse produces for them.
-/

namespace SqlSparql

/-- Python `None`-able scalar values (`Any` fields of the IR).  Python float
values are represented by the literal text they were parsed from; no claim
in this development depends on float formatting. -/
inductive PyVal where
  | str (s : String)
  | int (i : Int)
  | float (lit : String)
  | bool (b : Bool)
  | pynone
deriving DecidableEq

/-- Python whitespace characters as stripped by `str.strip()` / `int()`. -/
def isPyWs (c : Char) : Bool :=
  c = ' ' || c = '\t' || c = '\n' || c = '\r' || c = '\x0b' || c = '\x0c'

/-- Python `str.strip()`. -/
def pyStrip (s : String) : String :=
  String.mk (((s.data.dropWhile isPyWs).reverse.dropWhile isPyWs).reverse)

/-- Python `sep.join(parts)`. -/
def strJoin (sep : String) : List String → String
  | [] => ""
  | [s] => s
  | s :: rest => s ++ sep ++ strJoin sep rest

/-- Python `str.upper()` (ASCII, which is all the source compares). -/
def pyUpper (s : String) : String := String.mk (s.data.map Char.toUpper)

/-- Python `str.lower()` (ASCII). -/
def pyLower (s : String) : String := String.mk (s.data.map Char.toLower)

/-- Does `s` start with the pattern `p` (list form of `str.startswith`)? -/
def listStarts : List Char → List Char → Bool
  | [], _ => true
  | _ :: _, [] => false
  | a :: as_, b :: bs => a = b && listStarts as_ bs

/-- Python `s.startswith(p)`. -/
def pyStartswith (s p : String) : Bool := listStarts p.data s.data

/-- Python `x or y` on an optional string (`None` and `""` are falsy). -/
def pyOr : Option String → String → String
  | some s, b => if s = "" then b else s
  | none, b => b

/-- Python `str(int)`: decimal digits with an optional leading minus. -/
def natStrGo : Nat → Nat → List Char → List Char
  | 0, _, acc => acc
  | f + 1, n, acc =>
    let d := Char.ofNat (48 + n % 10)
    if n < 10 then d :: acc else natStrGo f (n / 10) (d :: acc)

def pyIntStr : Int → String
  | .ofNat n => String.mk (natStrGo (n + 1) n [])
  | .negSucc m => "-" ++ String.mk (natStrGo (m + 2) (m + 1) [])

/-- Digit run with Python 3 underscore rules (single `_` between digits). -/
def digitsGo (acc : Nat) : List Char → Option Nat
  | [] => some acc
  | '_' :: rest =>
    match rest with
    | d :: rest2 =>
      if d.isDigit then digitsGo (acc * 10 + (d.toNat - 48)) rest2 else none
    | [] => none
  | d :: rest =>
    if d.isDigit then digitsGo (acc * 10 + (d.toNat - 48)) rest else none

/-- Python `int(s)`: strip whitespace, optional sign, digit run; `none`
models the `ValueError`. -/
def pyIntParse (s : String) : Option Int :=
  let cs := ((s.data.dropWhile isPyWs).reverse.dropWhile isPyWs).reverse
  match cs with
  | [] => none
  | c :: rest =>
    let signed : Bool × List Char :=
      if c = '-' then (true, rest) else if c = '+' then (false, rest) else (false, cs)
    match signed.2 with
    | [] => none
    | d :: ds =>
      if d.isDigit then
        match digitsGo (d.toNat - 48) ds with
        | some n => some (if signed.1 then -(n : Int) else (n : Int))
        | none => none
      else none

/-- Python `s.strip("'\"")`: remove any leading/trailing quote characters. -/
def stripQuotes (s : String) : String :=
  let isQ : Char → Bool := fun c => c = '\'' || c = '"'
  String.mk (((s.data.dropWhile isQ).reverse.dropWhile isQ).reverse)

/-! ## The sqlparse token-stream boundary -/

/-- The `ttype` identities `parser.py` distinguishes (exact `is` checks on
sqlparse token types).  `keywordOrder` models `Keyword.Order` (ASC/DESC),
which is a different object from `Keyword`. -/
inductive TType where
  | dml | keyword | keywordOrder | wildcard | nameT | strSingle | strDouble
  | numInt | numFloat | cmpOp | punct | wsT | other
deriving DecidableEq

/-- The sqlparse group (TokenList subclass) kinds `parser.py` tests with
`isinstance`. -/
inductive GroupKind where
  | identifier | identifierList | function | paren | whereG | comparison
deriving DecidableEq

/-- A sqlparse token: either a plain leaf token or a grouped token list.
Groups carry sqlparse's `str(token)` (`val`), `get_real_name()` and
`get_alias()` results as data, plus their child tokens. -/
inductive Tok where
  | tok (tt : TType) (val : String)
  | group (kind : GroupKind) (val : String) (realName : Option String)
      (aliasName : Option String) (subs : List Tok)

/-- sqlparse `token.value`. -/
def Tok.value : Tok → String
  | .tok _ v => v
  | .group _ v _ _ _ => v

/-- sqlparse `token.is_whitespace`. -/
def Tok.isWs : Tok → Bool
  | .tok .wsT _ => true
  | _ => false

/-- `token.ttype is X` (group tokens have `ttype None`). -/
def Tok.ttypeIs (t : Tok) (tt : TType) : Bool :=
  match t with
  | .tok tt2 _ => tt2 = tt
  | .group _ _ _ _ _ => false

/-- `isinstance(token, X)` for the group classes. -/
def Tok.isKind (t : Tok) (k : GroupKind) : Bool :=
  match t with
  | .group k2 _ _ _ _ => k2 = k
  | .tok _ _ => false

/-- One parsed sqlparse statement: the result of `statement.get_type()`
plus the top-level token stream. -/
structure Statement where
  stmtType : String
  tokens : List Tok

/-! ## parser.py: the intermediate representation -/

/-- Supported SQL aggregate functions (`AggregateFunction` enum). -/
inductive AggregateFunction where
  | COUNT | SUM | AVG | MIN | MAX
deriving DecidableEq

/-- The enum member's string value. -/
def AggregateFunction.val : AggregateFunction → String
  | .COUNT => "COUNT"
  | .SUM => "SUM"
  | .AVG => "AVG"
  | .MIN => "MIN"
  | .MAX => "MAX"

/-- `AggregateFunction(name)`; `none` models the `ValueError`. -/
def AggregateFunction.fromString (s : String) : Option AggregateFunction :=
  if s = "COUNT" then some .COUNT
  else if s = "SUM" then some .SUM
  else if s = "AVG" then some .AVG
  else if s = "MIN" then some .MIN
  else if s = "MAX" then some .MAX
  else none

/-- Supported SQL comparison operators (`ComparisonOperator` enum). -/
inductive ComparisonOperator where
  | EQ | NE | LT | LE | GT | GE | LIKE | IN | IS_NULL | IS_NOT_NULL
deriving DecidableEq

/-- `ComparisonOperator(text)`; `none` models the `ValueError`. -/
def ComparisonOperator.fromString (s : String) : Option ComparisonOperator :=
  if s = "=" then some .EQ
  else if s = "!=" then some .NE
  else if s = "<" then some .LT
  else if s = "<=" then some .LE
  else if s = ">" then some .GT
  else if s = ">=" then some .GE
  else if s = "LIKE" then some .LIKE
  else if s = "IN" then some .IN
  else if s = "IS NULL" then some .IS_NULL
  else if s = "IS NOT NULL" then some .IS_NOT_NULL
  else none

/-- A column in a SELECT clause (`SelectColumn` dataclass). -/
structure SelectColumn where
  name : String
  aliasName : Option String := none
  aggregate : Option AggregateFunction := none
  distinct : Bool := false
deriving DecidableEq

/-- A WHERE-clause condition (`WhereCondition` dataclass, with the fields at
their annotated types `str` / `ComparisonOperator` / `Any`). -/
structure WhereCondition where
  column : String
  operator : ComparisonOperator
  value : PyVal
  is_and : Bool := true
deriving DecidableEq

/-- An ORDER BY column (`OrderByColumn` dataclass). -/
structure OrderByColumn where
  column : String
  ascending : Bool := true
deriving DecidableEq

/-- The intermediate representation (`ParsedQuery` dataclass). -/
structure ParsedQuery where
  columns : List SelectColumn := []
  table : Option String := none
  table_alias : Option String := none
  where_conditions : List WhereCondition := []
  group_by : List String := []
  having_conditions : List WhereCondition := []
  order_by : List OrderByColumn := []
  limit : Option Int := none
  offset : Option Int := none
  distinct : Bool := false
deriving DecidableEq

/-! ## parser.py: the clause parsers

Each `_parse_*_clause` method scans forward over the whitespace-filtered
token list with a cursor; the cursor is embedded as the remaining suffix of
the token list.  Exceptions (including the `AttributeError`s Python would
raise on tokens outside the annotated types) are `Except.error`. -/

/-- sqlparse `TokenList.get_identifiers()`: child tokens that are neither
whitespace nor a comma. -/
def getIdentifiers (subs : List Tok) : List Tok :=
  subs.filter (fun t => !t.isWs && !(t.ttypeIs .punct && t.value = ","))

/-- First `Function` child, as scanned by `_parse_identifier`. -/
def findFunction : List Tok → Option Tok
  | [] => none
  | t :: rest => if t.isKind .function then some t else findFunction rest

/-- Inner loop of `_parse_function` over the whitespace-filtered contents of
a parenthesis: DISTINCT flag and innermost column text. -/
def funcInnerLoop : List Tok → String → Bool → Except String (String × Bool)
  | [], ic, d => .ok (ic, d)
  | t :: rest, ic, d =>
    if t.ttypeIs .keyword && pyUpper t.value = "DISTINCT" then
      funcInnerLoop rest ic true
    else
      match t with
      | .group .identifier _ rn _ _ =>
        match rn with
        | some n => funcInnerLoop rest n d
        | none => .error "embedding: identifier without a real name"
      | _ =>
        if t.value = "(" || t.value = ")" then funcInnerLoop rest ic d
        else funcInnerLoop rest t.value d

/-- `_parse_function`: loop over the function group's children looking for
the parenthesis, then classify the function name. -/
def funcParenLoop : List Tok → String → Bool → Except String (String × Bool)
  | [], ic, d => .ok (ic, d)
  | t :: rest, ic, d =>
    match t with
    | .group .paren _ _ _ inner => do
      let (ic2, d2) ← funcInnerLoop (inner.filter (fun x => !x.isWs)) ic d
      funcParenLoop rest ic2 d2
    | _ => funcParenLoop rest ic d

def parse_function (f : Tok) (al : Option String) : Except String SelectColumn :=
  match f with
  | .tok _ _ => .error "AttributeError: Token object has no attribute tokens"
  | .group _ fval rn _ subs =>
    match rn with
    | none => .error "AttributeError: NoneType object has no attribute upper"
    | some rname => do
      let func_name := pyUpper rname
      let (inner_col, distinct) ← funcParenLoop subs "*" false
      match AggregateFunction.fromString func_name with
      | none => .ok { name := fval, aliasName := al }
      | some agg =>
        .ok { name := inner_col, aliasName := al, aggregate := some agg,
              distinct := distinct }

/-- `_parse_identifier`. -/
def parse_identifier (idTok : Tok) : Except String SelectColumn :=
  match idTok with
  | .tok _ _ => .error "AttributeError: Token object has no attribute tokens"
  | .group _ v rn al subs =>
    match findFunction subs with
    | some f => parse_function f al
    | none =>
      let nm := match rn with
        | some n => if n = "" then v else n
        | none => v
      .ok { name := nm, aliasName := al }

/-- Skip tokens up to and including the SELECT keyword. -/
def skipPastSelect : List Tok → List Tok
  | [] => []
  | t :: rest =>
    if t.ttypeIs .dml && pyUpper t.value = "SELECT" then rest
    else skipPastSelect rest

/-- Optionally consume DISTINCT after SELECT. -/
def distinctStep (ts : List Tok) (r : ParsedQuery) : List Tok × ParsedQuery :=
  match ts with
  | [] => ([], r)
  | t :: rest =>
    if t.ttypeIs .keyword && pyUpper t.value = "DISTINCT" then
      (rest, { r with distinct := true })
    else (t :: rest, r)

/-- `_parse_select_clause`. -/
def parse_select_clause (tokens : List Tok) (r : ParsedQuery) :
    Except String (List Tok × ParsedQuery) := do
  let rest := skipPastSelect tokens
  let (rest, r) := distinctStep rest r
  match rest with
  | [] => .ok ([], r)
  | t :: rest2 =>
    if t.ttypeIs .wildcard then
      .ok (rest2, { r with columns := r.columns ++ [{ name := "*" }] })
    else
      match t with
      | .group .identifierList _ _ _ subs => do
        let cols ← (getIdentifiers subs).mapM parse_identifier
        .ok (rest2, { r with columns := r.columns ++ cols })
      | .group .identifier _ _ _ _ => do
        let c ← parse_identifier t
        .ok (rest2, { r with columns := r.columns ++ [c] })
      | .group .function _ _ _ _ => do
        let c ← parse_function t none
        .ok (rest2, { r with columns := r.columns ++ [c] })
      | _ => .ok (t :: rest2, r)

/-- `_parse_from_clause`. -/
def parse_from_clause : List Tok → ParsedQuery → List Tok × ParsedQuery
  | [], r => ([], r)
  | t :: rest, r =>
    if t.ttypeIs .keyword && pyUpper t.value = "FROM" then
      match rest with
      | [] => ([], r)
      | t2 :: rest2 =>
        match t2 with
        | .group .identifier _ rn al _ =>
          (rest2, { r with table := rn, table_alias := al })
        | _ => (rest2, { r with table := some t2.value })
    else parse_from_clause rest r

/-- `_parse_comparison`: fold over the whitespace-filtered children of a
Comparison group. -/
def comparisonFold : List Tok → Option String → Option ComparisonOperator →
    PyVal → Except String (Option String × Option ComparisonOperator × PyVal)
  | [], c, o, v => .ok (c, o, v)
  | t :: rest, c, o, v =>
    if t.isKind .identifier || t.ttypeIs .nameT then
      let nm : Option String := match t with
        | .group .identifier _ rn _ _ => rn
        | other => some other.value
      match c with
      | none => comparisonFold rest nm o v
      | some _ =>
        comparisonFold rest c o (match nm with
          | some s => .str s
          | none => .pynone)
    else if t.ttypeIs .cmpOp then
      match ComparisonOperator.fromString t.value with
      | some op => comparisonFold rest c (some op) v
      | none => .error ("ValueError: not a valid ComparisonOperator: " ++ t.value)
    else if t.ttypeIs .strSingle || t.ttypeIs .strDouble then
      comparisonFold rest c o (.str (stripQuotes t.value))
    else if t.ttypeIs .numInt || t.ttypeIs .numFloat then
      if '.' ∈ t.value.data then comparisonFold rest c o (.float t.value)
      else
        match pyIntParse t.value with
        | some n => comparisonFold rest c o (.int n)
        | none => .error ("ValueError: invalid literal for int: " ++ t.value)
    else comparisonFold rest c o v

def parse_comparison (subs : List Tok) : Except String WhereCondition := do
  let (c, o, v) ← comparisonFold (subs.filter (fun t => !t.isWs)) none none .pynone
  match c, o with
  | some column, some op => .ok { column := column, operator := op, value := v }
  | _, _ => .error "embedding: comparison outside the annotated field types"

/-- `_parse_conditions`: every Comparison child of the WHERE group. -/
def parse_conditions (subs : List Tok) : Except String (List WhereCondition) :=
  (subs.filter (fun t => t.isKind .comparison)).mapM (fun t =>
    match t with
    | .group _ _ _ _ inner => parse_comparison inner
    | .tok _ _ => .error "unreachable: comparison leaf")

/-- `_parse_where_clause`. -/
def parse_where_clause : List Tok → ParsedQuery →
    Except String (List Tok × ParsedQuery)
  | [], r => .ok ([], r)
  | t :: rest, r =>
    match t with
    | .group .whereG _ _ _ subs => do
      let conds ← parse_conditions subs
      .ok (rest, { r with where_conditions := conds })
    | _ =>
      if t.ttypeIs .keyword &&
          (pyUpper t.value = "GROUP" || pyUpper t.value = "ORDER" ||
           pyUpper t.value = "LIMIT" || pyUpper t.value = "HAVING") then
        .ok (t :: rest, r)
      else parse_where_clause rest r

/-- Column names collected from the token after GROUP BY. -/
def groupNamesOf (t : Tok) : Except String (List String) :=
  match t with
  | .group .identifierList _ _ _ subs =>
    (getIdentifiers subs).mapM (fun id_ =>
      match id_ with
      | .group _ v rn _ _ =>
        .ok (match rn with
          | some n => if n = "" then v else n
          | none => v)
      | .tok _ _ => .error "AttributeError: Token object has no attribute tokens")
  | .group .identifier _ rn _ _ =>
    match rn with
    | some n => .ok [n]
    | none => .error "embedding: identifier without a real name"
  | other => .ok [other.value]

/-- `_parse_group_by_clause`. -/
def parse_group_by_clause : List Tok → ParsedQuery →
    Except String (List Tok × ParsedQuery)
  | [], r => .ok ([], r)
  | t :: rest, r =>
    if t.ttypeIs .keyword && pyUpper t.value = "GROUP" then
      let rest2 := match rest with
        | b :: rest1 => if b.ttypeIs .keyword then rest1 else b :: rest1
        | [] => []
      match rest2 with
      | [] => .ok ([], r)
      | c :: rest3 => do
        let names ← groupNamesOf c
        .ok (rest3, { r with group_by := r.group_by ++ names })
    else if t.ttypeIs .keyword &&
        (pyUpper t.value = "ORDER" || pyUpper t.value = "LIMIT" ||
         pyUpper t.value = "HAVING") then
      .ok (t :: rest, r)
    else parse_group_by_clause rest r

/-- `_parse_having_clause` (deliberately a no-op in the source). -/
def parse_having_clause (ts : List Tok) (r : ParsedQuery) :
    List Tok × ParsedQuery := (ts, r)

/-- Is any child a plain-Keyword token spelled DESC?  (`Keyword.Order`
tokens do not satisfy the source's `ttype is Keyword` test.) -/
def hasDescKeyword (subs : List Tok) : Bool :=
  subs.any (fun t => t.ttypeIs .keyword && pyUpper t.value = "DESC")

/-- ORDER BY columns collected from the token after ORDER BY. -/
def orderColsOf (t : Tok) : Except String (List OrderByColumn)
  :=
  match t with
  | .group .identifierList _ _ _ subs =>
    (getIdentifiers subs).mapM (fun id_ =>
      match id_ with
      | .group _ v rn _ isubs =>
        .ok { column := (match rn with
                | some n => if n = "" then v else n
                | none => v),
              ascending := !hasDescKeyword isubs }
      | .tok _ _ => .error "AttributeError: Token object has no attribute tokens")
  | .group .identifier _ rn _ isubs =>
    match rn with
    | some n => .ok [{ column := n, ascending := !hasDescKeyword isubs }]
    | none => .error "embedding: identifier without a real name"
  | _ => .ok []

/-- `_parse_order_by_clause`. -/
def parse_order_by_clause : List Tok → ParsedQuery →
    Except String (List Tok × ParsedQuery)
  | [], r => .ok ([], r)
  | t :: rest, r =>
    if t.ttypeIs .keyword && pyUpper t.value = "ORDER" then
      let rest2 := match rest with
        | b :: rest1 => if b.ttypeIs .keyword then rest1 else b :: rest1
        | [] => []
      match rest2 with
      | [] => .ok ([], r)
      | c :: rest3 => do
        let cols ← orderColsOf c
        .ok (rest3, { r with order_by := r.order_by ++ cols })
    else if t.ttypeIs .keyword && pyUpper t.value = "LIMIT" then
      .ok (t :: rest, r)
    else parse_order_by_clause rest r

/-- `_parse_limit_clause`: note the `break` after LIMIT and the extra
cursor increment after OFFSET, both faithful to the source. -/
def parse_limit_clause : List Tok → ParsedQuery → ParsedQuery
  | [], r => r
  | t :: rest, r =>
    if t.ttypeIs .keyword && pyUpper t.value = "LIMIT" then
      match rest with
      | [] => r
      | op :: _ =>
        match pyIntParse op.value with
        | some n => { r with limit := some n }
        | none => r
    else if t.ttypeIs .keyword && pyUpper t.value = "OFFSET" then
      match rest with
      | [] => r
      | op :: rest2 =>
        let r2 := match pyIntParse op.value with
          | some n => { r with offset := some n }
          | none => r
        match rest2 with
        | [] => r2
        | _ :: rest3 => parse_limit_clause rest3 r2
    else parse_limit_clause rest r

/-- The clause sequence of `SQLParser.parse` after the SELECT clause
(FROM, WHERE, GROUP BY, HAVING, ORDER BY, LIMIT, in source order). -/
def parse_rest (ts : List Tok) (r : ParsedQuery) : Except String ParsedQuery := do
  let (ts, r) := parse_from_clause ts r
  let (ts, r) ← parse_where_clause ts r
  let (ts, r) ← parse_group_by_clause ts r
  let (ts, r) := parse_having_clause ts r
  let (ts, r) ← parse_order_by_clause ts r
  .ok (parse_limit_clause ts r)

/-- `SQLParser.parse`, from the statement produced by `sqlparse.parse`. -/
def parse (stmt : Statement) : Except String ParsedQuery :=
  if stmt.stmtType ≠ "SELECT" then
    .error ("Only SELECT statements are supported, got: " ++ stmt.stmtType)
  else do
    let tokens := stmt.tokens.filter (fun t => !t.isWs)
    let r : ParsedQuery := {}
    let (ts, r) ← parse_select_clause tokens r
    parse_rest ts r

/-! ## namespaces.py -/

/-- The namespace registry (`PREFIXES` dict, in source order). -/
def PREFIXES : List (String × String) := [
  ("cube", "https://cube.link/"),
  ("cubeView", "https://cube.link/view/"),
  ("cubeMeta", "https://cube.link/meta/"),
  ("schema", "http://schema.org/"),
  ("rdf", "http://www.w3.org/1999/02/22-rdf-syntax-ns#"),
  ("rdfs", "http://www.w3.org/2000/01/rdf-schema#"),
  ("xsd", "http://www.w3.org/2001/XMLSchema#"),
  ("dct", "http://purl.org/dc/terms/"),
  ("dcat", "http://www.w3.org/ns/dcat#"),
  ("skos", "http://www.w3.org/2004/02/skos/core#"),
  ("qb", "http://purl.org/linked-data/cube#"),
  ("owl", "http://www.w3.org/2002/07/owl#"),
  ("foaf", "http://xmlns.com/foaf/0.1/"),
  ("sh", "http://www.w3.org/ns/shacl#"),
  ("time", "http://www.w3.org/2006/time#"),
  ("geo", "http://www.opengis.net/ont/geosparql#"),
  ("qudt", "http://qudt.org/schema/qudt/"),
  ("adminVocab", "https://ld.admin.ch/vocabulary/"),
  ("adminCh", "https://ld.admin.ch/")]

/-- `get_prefix_declarations`. -/
def get_prefix_declarations : String :=
  strJoin "\n" (PREFIXES.map (fun p => "PREFIX " ++ p.1 ++ ": <" ++ p.2 ++ ">"))

/-! ## translator.py -/

/-- `_sanitize_var_name`: replace `. - : / #` by `_`; prefix `v` if the
result starts with a digit. -/
def sanitize_var_name (name : String) : String :=
  let cs := name.data.map (fun c =>
    if c = '.' || c = '-' || c = ':' || c = '/' || c = '#' then '_' else c)
  match cs with
  | [] => String.mk cs
  | c :: _ => if c.isDigit then "v" ++ String.mk cs else String.mk cs

/-- `_get_cube_uri`, with the translator's `cube_mapping` dict passed in. -/
def get_cube_uri (cm : List (String × String)) (table_name : Option String) :
    Except String String :=
  match table_name with
  | none => .error "No table specified in query"
  | some t =>
    if t = "" then .error "No table specified in query"
    else
      match cm.lookup t with
      | some uri => .ok uri
      | none =>
        if pyStartswith t "http://" || pyStartswith t "https://" then .ok t
        else .ok ("https://environment.ld.admin.ch/foen/cube/" ++ t)

/-- `_column_to_variable`. -/
def column_to_variable (col : SelectColumn) : String :=
  "?" ++ sanitize_var_name (pyOr col.aliasName col.name)

/-- The per-column body of the `_build_select_clause` loop. -/
def columnExpr (col : SelectColumn) : String :=
  let var_name := column_to_variable col
  match col.aggregate with
  | none => var_name
  | some agg =>
    let agg_func := agg.val
    let inner_var := "?" ++ sanitize_var_name col.name
    if col.distinct then
      "(" ++ agg_func ++ "(DISTINCT " ++ inner_var ++ ") AS ?" ++
        pyOr col.aliasName col.name ++ "_" ++ pyLower agg_func ++ ")"
    else
      "(" ++ agg_func ++ "(" ++ inner_var ++ ") AS ?" ++
        pyOr col.aliasName col.name ++ "_" ++ pyLower agg_func ++ ")"

/-- Python `len(columns) == 1 and columns[0].name == "*"`. -/
def isSingleWildcard : List SelectColumn → Bool
  | [c] => c.name = "*"
  | _ => false

/-- `_build_select_clause`. -/
def build_select_clause (q : ParsedQuery) : String :=
  let distinct := if q.distinct then "DISTINCT " else ""
  if isSingleWildcard q.columns then "SELECT " ++ distinct ++ "*"
  else "SELECT " ++ distinct ++ strJoin " " (q.columns.map columnExpr)

/-- First component of `col_name.split(":", 1)`. -/
def splitColonHead (s : String) : String :=
  String.mk (s.data.takeWhile (fun c => c ≠ ':'))

/-- `_column_to_pattern`. -/
def column_to_pattern (col_name : String) : String :=
  let var_name := sanitize_var_name col_name
  if pyStartswith col_name "http://" || pyStartswith col_name "https://" then
    "  ?observation <" ++ col_name ++ "> ?" ++ var_name ++ " ."
  else if col_name.data.contains ':' && !pyStartswith col_name "?" then
    if (PREFIXES.map Prod.fst).contains (splitColonHead col_name) then
      "  ?observation " ++ col_name ++ " ?" ++ var_name ++ " ."
    else "  ?observation schema:" ++ col_name ++ " ?" ++ var_name ++ " ."
  else "  ?observation schema:" ++ col_name ++ " ?" ++ var_name ++ " ."

/-- Python `str(value)` for the IR's scalar values. -/
def pyStrOf : PyVal → String
  | .str s => s
  | .int i => pyIntStr i
  | .float lit => lit
  | .bool b => if b then "True" else "False"
  | .pynone => "None"

/-- `_format_value`. -/
def format_value : PyVal → String
  | .str s =>
    if pyStartswith s "http://" || pyStartswith s "https://" then "<" ++ s ++ ">"
    else "\"" ++ s ++ "\""
  | .bool b => if b then "true" else "false"
  | .int i => pyIntStr i
  | .float lit => lit
  | .pynone => "\"None\""

/-- SQL LIKE pattern to regex: `%` to `.*`, then `_` to `.`. -/
def likePattern (s : String) : String :=
  String.mk (s.data.foldr (fun c acc =>
    if c = '%' then '.' :: '*' :: acc
    else if c = '_' then '.' :: acc
    else c :: acc) [])

/-- `_condition_to_filter`.  There is no branch for `IN`, so an IN
condition returns the empty string, exactly like the source falling off
the end of its `elif` chain. -/
def condition_to_filter (c : WhereCondition) : Except String String :=
  let var_name := "?" ++ sanitize_var_name c.column
  match c.operator with
  | .EQ => .ok ("  FILTER(" ++ var_name ++ " = " ++ format_value c.value ++ ")")
  | .NE => .ok ("  FILTER(" ++ var_name ++ " != " ++ format_value c.value ++ ")")
  | .LT => .ok ("  FILTER(" ++ var_name ++ " < " ++ pyStrOf c.value ++ ")")
  | .LE => .ok ("  FILTER(" ++ var_name ++ " <= " ++ pyStrOf c.value ++ ")")
  | .GT => .ok ("  FILTER(" ++ var_name ++ " > " ++ pyStrOf c.value ++ ")")
  | .GE => .ok ("  FILTER(" ++ var_name ++ " >= " ++ pyStrOf c.value ++ ")")
  | .LIKE =>
    match c.value with
    | .str s =>
      .ok ("  FILTER(REGEX(" ++ var_name ++ ", \"" ++ likePattern s ++ "\", \"i\"))")
    | _ => .error "AttributeError: object has no attribute replace"
  | .IS_NULL => .ok ("  FILTER(!BOUND(" ++ var_name ++ "))")
  | .IS_NOT_NULL => .ok ("  FILTER(BOUND(" ++ var_name ++ "))")
  | .IN => .ok ""

/-- The condition loop of `_build_where_clause`: a filter line is appended
only when `_condition_to_filter` returned non-empty text. -/
def condLines : List WhereCondition → Except String (List String)
  | [] => .ok []
  | c :: rest => do
    let f ← condition_to_filter c
    let fs ← condLines rest
    if f ≠ "" then .ok (f :: fs) else .ok fs

/-- The triple-pattern block of `_build_where_clause`: the anchor lines
followed by one pattern per non-wildcard selected column. -/
def patternBlock (cube_uri : String) (q : ParsedQuery) : List String :=
  ["  ?observation a cube:Observation ;",
   "    cube:observedBy <" ++ cube_uri ++ "> ."] ++
  (q.columns.filter (fun c => c.name ≠ "*")).map (fun c => column_to_pattern c.name)

/-- `_build_where_clause`. -/
def build_where_clause (cm : List (String × String)) (q : ParsedQuery) :
    Except String String := do
  let cube_uri ← get_cube_uri cm q.table
  let fls ← condLines q.where_conditions
  .ok (strJoin "\n" (patternBlock cube_uri q ++ fls))

/-- `_build_group_by_clause`. -/
def build_group_by_clause (q : ParsedQuery) : String :=
  if q.group_by.isEmpty then
    let has_aggregates := q.columns.any (fun c => c.aggregate.isSome)
    let non_aggregate_cols :=
      q.columns.filter (fun c => c.aggregate.isNone && c.name ≠ "*")
    if has_aggregates && !non_aggregate_cols.isEmpty then
      "GROUP BY " ++
        strJoin " " (non_aggregate_cols.map (fun c => "?" ++ sanitize_var_name c.name))
    else ""
  else
    "GROUP BY " ++ strJoin " " (q.group_by.map (fun g => "?" ++ sanitize_var_name g))

/-- `_build_order_by_clause`. -/
def build_order_by_clause (q : ParsedQuery) : String :=
  if q.order_by.isEmpty then ""
  else
    "ORDER BY " ++ strJoin " " (q.order_by.map (fun oc =>
      let var_name := "?" ++ sanitize_var_name oc.column
      if oc.ascending then var_name else "DESC(" ++ var_name ++ ")"))

/-- `_build_limit_offset`. -/
def build_limit_offset (q : ParsedQuery) : String :=
  let parts :=
    (match q.limit with
     | some l => ["LIMIT " ++ pyIntStr l]
     | none => []) ++
    (match q.offset with
     | some o => ["OFFSET " ++ pyIntStr o]
     | none => [])
  strJoin " " parts

/-- The f-string body of `translate`, before `.strip()`. -/
def translateRaw (select_clause where_clause group_by_clause order_by_clause
    limit_offset : String) : String :=
  get_prefix_declarations ++ "\n\n" ++ select_clause ++ "\nWHERE \x7b\n" ++
    where_clause ++ "\n\x7d\n" ++ group_by_clause ++ "\n" ++ order_by_clause ++
    "\n" ++ limit_offset ++ "\n"

/-- `SQLToSPARQLTranslator.translate` (the clause builders run in source
order, so the missing-table error fires before any condition is rendered). -/
def translate (cm : List (String × String)) (q : ParsedQuery) :
    Except String String := do
  let select_clause := build_select_clause q
  let where_clause ← build_where_clause cm q
  let group_by_clause := build_group_by_clause q
  let order_by_clause := build_order_by_clause q
  let limit_offset := build_limit_offset q
  .ok (pyStrip (translateRaw select_clause where_clause group_by_clause
    order_by_clause limit_offset))

/-- `translate_sql_to_sparql`, at the parsed-statement boundary. -/
def translate_sql_to_sparql (cm : List (String × String)) (stmt : Statement) :
    Except String String := do
  let q ← parse stmt
  translate cm q

/-! ## Concrete statements (sqlparse tokenizations of test inputs) -/

/-- A whitespace leaf token. -/
def wsTok : Tok := .tok .wsT " "

/-- sqlparse tokenization of `SELECT COUNT(DISTINCT region) AS n FROM
co2_emissions`: the aliased aggregate is an Identifier group wrapping a
Function group whose Parenthesis holds DISTINCT and the column. -/
def c7Stmt : Statement :=
  { stmtType := "SELECT",
    tokens := [
      .tok .dml "SELECT", wsTok,
      .group .identifier "COUNT(DISTINCT region) AS n" (some "COUNT") (some "n") [
        .group .function "COUNT(DISTINCT region)" (some "COUNT") none [
          .tok .nameT "COUNT",
          .group .paren "(DISTINCT region)" none none [
            .tok .punct "(",
            .tok .keyword "DISTINCT", wsTok,
            .group .identifier "region" (some "region") none [.tok .nameT "region"],
            .tok .punct ")"]],
        wsTok, .tok .keyword "AS", wsTok,
        .group .identifier "n" (some "n") none [.tok .nameT "n"]],
      wsTok, .tok .keyword "FROM", wsTok,
      .group .identifier "co2_emissions" (some "co2_emissions") none
        [.tok .nameT "co2_emissions"]] }

/-- sqlparse tokenization of `SELECT * FROM x WHERE year = 2020 ORDER BY
year DESC LIMIT 5 OFFSET 10`: the WHERE group ends before the single
Keyword token `ORDER BY`; `year DESC` is one Identifier whose DESC child
has ttype `Keyword.Order`. -/
def c8Stmt : Statement :=
  { stmtType := "SELECT",
    tokens := [
      .tok .dml "SELECT", wsTok,
      .tok .wildcard "*", wsTok,
      .tok .keyword "FROM", wsTok,
      .group .identifier "x" (some "x") none [.tok .nameT "x"],
      wsTok,
      .group .whereG "WHERE year = 2020 " none none [
        .tok .keyword "WHERE", wsTok,
        .group .comparison "year = 2020" none none [
          .group .identifier "year" (some "year") none [.tok .nameT "year"],
          wsTok, .tok .cmpOp "=", wsTok,
          .tok .numInt "2020"],
        wsTok],
      .tok .keyword "ORDER BY", wsTok,
      .group .identifier "year DESC" (some "year") none
        [.tok .nameT "year", wsTok, .tok .keywordOrder "DESC"],
      wsTok, .tok .keyword "LIMIT", wsTok,
      .tok .numInt "5", wsTok,
      .tok .keyword "OFFSET", wsTok,
      .tok .numInt "10"] }

/-- sqlparse tokenization of `SELECT FROM t` (the statement type is still
SELECT; the select list is empty because the token after SELECT is the
FROM keyword). -/
def c5Stmt : Statement :=
  { stmtType := "SELECT",
    tokens := [
      .tok .dml "SELECT", wsTok,
      .tok .keyword "FROM", wsTok,
      .group .identifier "t" (some "t") none [.tok .nameT "t"]] }

/-- sqlparse tokenization of `SELECT * FROM t`. -/
def c5aStmt : Statement :=
  { stmtType := "SELECT",
    tokens := [
      .tok .dml "SELECT", wsTok,
      .tok .wildcard "*", wsTok,
      .tok .keyword "FROM", wsTok,
      .group .identifier "t" (some "t") none [.tok .nameT "t"]] }

/-- A `ParsedQuery` with a single `IN` condition (annotated-typed IR). -/
def c4Query : ParsedQuery :=
  { columns := [{ name := "*" }],
    table := some "x",
    where_conditions :=
      [{ column := "year", operator := .IN, value := .int 5 }] }

/-- sqlparse tokenization of `SELECT a FROM t LIMIT <v>` where the LIMIT
operand's token text is `v` (a malformed operand is delivered as an
Identifier token whose value is its text). -/
def c9LimitStmt (v : String) : Statement :=
  { stmtType := "SELECT",
    tokens := [
      .tok .dml "SELECT", wsTok,
      .group .identifier "a" (some "a") none [.tok .nameT "a"], wsTok,
      .tok .keyword "FROM", wsTok,
      .group .identifier "t" (some "t") none [.tok .nameT "t"], wsTok,
      .tok .keyword "LIMIT", wsTok,
      .group .identifier v (some v) none [.tok .nameT v]] }

/-- sqlparse tokenization of `SELECT a FROM t OFFSET <v>`. -/
def c9OffsetStmt (v : String) : Statement :=
  { stmtType := "SELECT",
    tokens := [
      .tok .dml "SELECT", wsTok,
      .group .identifier "a" (some "a") none [.tok .nameT "a"], wsTok,
      .tok .keyword "FROM", wsTok,
      .group .identifier "t" (some "t") none [.tok .nameT "t"], wsTok,
      .tok .keyword "OFFSET", wsTok,
      .group .identifier v (some v) none [.tok .nameT v]] }

/-- sqlparse tokenization of `SELECT a FROM t`. -/
def c9BaseStmt : Statement :=
  { stmtType := "SELECT",
    tokens := [
      .tok .dml "SELECT", wsTok,
      .group .identifier "a" (some "a") none [.tok .nameT "a"], wsTok,
      .tok .keyword "FROM", wsTok,
      .group .identifier "t" (some "t") none [.tok .nameT "t"]] }

/-- A name or literal free of the characters that could collide with the
anchor triple text: no colon, no angle bracket, no newline.  Every bare SQL
identifier and ordinary literal produced by the parser satisfies this. -/
abbrev cleanChars (s : String) : Prop :=
  ':' ∉ s.data ∧ '<' ∉ s.data ∧ '\n' ∉ s.data

/-- Character cleanliness for a condition value. -/
abbrev cleanVal : PyVal → Prop
  | .str s => cleanChars s
  | .float lit => cleanChars lit
  | _ => True

/-- Did the call succeed? -/
def isOkE {α : Type} : Except String α → Bool
  | .ok _ => true
  | .error _ => false

/-- The produced SPARQL text (empty on error). -/
def okStr : Except String String → String
  | .ok s => s
  | .error _ => ""

/-- The produced `ParsedQuery` (defaults on error). -/
def parsedOr : Except String ParsedQuery → ParsedQuery
  | .ok q => q
  | .error _ => {}

/-! ## Substring occurrence counting

`countOcc p s` counts the positions of `s` at which the pattern `p`
occurs.  It is the yardstick for the "contains exactly one / contains no"
statements of the claims. -/

/-- Number of occurrences of the pattern `p` in `s` (by start position). -/
def countOcc (p : List Char) : List Char → Nat
  | [] => if listStarts p [] then 1 else 0
  | c :: s => (if listStarts p (c :: s) then 1 else 0) + countOcc p s

theorem listStarts_iff {p s : List Char} :
    listStarts p s = true ↔ ∃ t, s = p ++ t := by
  induction p generalizing s with
  | nil => simp [listStarts]
  | cons a as ih =>
    cases s with
    | nil => simp [listStarts]
    | cons b bs =>
      constructor
      · intro h
        have hab : a = b ∧ listStarts as bs = true := by
          simpa [listStarts] using h
        rcases ih.mp hab.2 with ⟨t, rfl⟩
        exact ⟨t, by rw [List.cons_append, hab.1]⟩
      · rintro ⟨t, ht⟩
        rw [List.cons_append] at ht
        injection ht with h1 h2
        simp only [listStarts, Bool.and_eq_true, decide_eq_true_eq]
        exact ⟨h1.symm, ih.mpr ⟨t, h2⟩⟩

theorem listStarts_self_append (p t : List Char) :
    listStarts p (p ++ t) = true :=
  listStarts_iff.mpr ⟨t, rfl⟩

theorem listStarts_mono_append {p s : List Char} (u : List Char)
    (h : listStarts p s = true) : listStarts p (s ++ u) = true := by
  rcases listStarts_iff.mp h with ⟨t, rfl⟩
  exact listStarts_iff.mpr ⟨t ++ u, by simp⟩

theorem listStarts_of_starts_append {p q s : List Char}
    (h : listStarts (p ++ q) s = true) : listStarts p s = true := by
  rcases listStarts_iff.mp h with ⟨t, rfl⟩
  exact listStarts_iff.mpr ⟨q ++ t, by simp⟩

theorem mem_of_listStarts {p s : List Char} {a : Char}
    (h : listStarts p s = true) (ha : a ∈ p) : a ∈ s := by
  rcases listStarts_iff.mp h with ⟨t, rfl⟩
  exact List.mem_append_left t ha

theorem listStarts_ne_nil_nil {p : List Char} (hp : p ≠ []) :
    listStarts p [] = false := by
  cases p with
  | nil => exact absurd rfl hp
  | cons a as => rfl

theorem countOcc_nil {p : List Char} (hp : p ≠ []) : countOcc p [] = 0 := by
  simp [countOcc, listStarts_ne_nil_nil hp]

theorem countOcc_zero_of_mem {p s : List Char} {c : Char}
    (hcp : c ∈ p) (hcs : c ∉ s) : countOcc p s = 0 := by
  induction s with
  | nil =>
    exact countOcc_nil (by rintro rfl; exact absurd hcp (List.not_mem_nil c))
  | cons d s ih =>
    have hd : listStarts p (d :: s) = false := by
      by_contra hne
      have := mem_of_listStarts (by simpa using hne) hcp
      exact hcs this
    have hs : c ∉ s := fun h => hcs (List.mem_cons_of_mem d h)
    simp [countOcc, hd, ih hs]

theorem listStarts_append_cons_nl {p : List Char} (hnl : '\n' ∉ p)
    (x y : List Char) : listStarts p (x ++ '\n' :: y) = listStarts p x := by
  induction p generalizing x with
  | nil => simp [listStarts]
  | cons a as ih =>
    cases x with
    | nil =>
      have ha : a ≠ '\n' := fun h => hnl (h ▸ List.mem_cons_self a as)
      simp [listStarts, ha, Ne.symm ha]
    | cons b bs =>
      have has : '\n' ∉ as := fun h => hnl (List.mem_cons_of_mem a h)
      simp [listStarts, ih has]

theorem countOcc_cons (p : List Char) (c : Char) (s : List Char) :
    countOcc p (c :: s) =
      (if listStarts p (c :: s) = true then 1 else 0) + countOcc p s := rfl

theorem countOcc_append_cons_nl {p : List Char} (hp : p ≠ [])
    (hnl : '\n' ∉ p) (x y : List Char) :
    countOcc p (x ++ '\n' :: y) = countOcc p x + countOcc p y := by
  induction x with
  | nil =>
    have h1 : listStarts p ('\n' :: y) = false := by
      cases p with
      | nil => exact absurd rfl hp
      | cons a as =>
        have ha : a ≠ '\n' := fun h => hnl (h ▸ List.mem_cons_self a as)
        simp [listStarts, ha]
    rw [List.nil_append, countOcc_cons, h1, countOcc_nil hp]
    simp
  | cons c x ih =>
    have h2 : listStarts p (c :: x ++ '\n' :: y) = listStarts p (c :: x) :=
      listStarts_append_cons_nl hnl (c :: x) y
    calc countOcc p (c :: x ++ '\n' :: y)
        = (if listStarts p (c :: x ++ '\n' :: y) = true then 1 else 0)
            + countOcc p (x ++ '\n' :: y) := rfl
      _ = (if listStarts p (c :: x) = true then 1 else 0)
            + (countOcc p x + countOcc p y) := by rw [h2, ih]
      _ = countOcc p (c :: x) + countOcc p y := by
            rw [countOcc_cons]; omega

theorem countOcc_strJoin_nl {p : List Char} (hp : p ≠ []) (hnl : '\n' ∉ p) :
    ∀ ls : List String,
      countOcc p (strJoin "\n" ls).data =
        (ls.map (fun s => countOcc p s.data)).sum
  | [] => by simp [strJoin, countOcc_nil hp]
  | [s] => by simp [strJoin]
  | s :: s2 :: rest => by
    have ih := countOcc_strJoin_nl hp hnl (s2 :: rest)
    have hjoin : strJoin "\n" (s :: s2 :: rest) =
        s ++ "\n" ++ strJoin "\n" (s2 :: rest) := rfl
    have hdata : (s ++ "\n" ++ strJoin "\n" (s2 :: rest)).data =
        s.data ++ '\n' :: (strJoin "\n" (s2 :: rest)).data := by
      simp [String.data_append]
    calc countOcc p (strJoin "\n" (s :: s2 :: rest)).data
        = countOcc p (s.data ++ '\n' :: (strJoin "\n" (s2 :: rest)).data) := by
          rw [hjoin, hdata]
      _ = countOcc p s.data + countOcc p (strJoin "\n" (s2 :: rest)).data :=
          countOcc_append_cons_nl hp hnl _ _
      _ = countOcc p s.data + (List.map (fun s => countOcc p s.data)
            (s2 :: rest)).sum := by rw [ih]
      _ = _ := by simp

theorem countOcc_le_cons (p : List Char) (c : Char) (s : List Char) :
    countOcc p s ≤ countOcc p (c :: s) := Nat.le_add_left _ _

theorem countOcc_le_append_left (p x y : List Char) :
    countOcc p y ≤ countOcc p (x ++ y) := by
  induction x with
  | nil => simp
  | cons c x ih =>
    calc countOcc p y ≤ countOcc p (x ++ y) := ih
      _ ≤ countOcc p (c :: (x ++ y)) := countOcc_le_cons p c (x ++ y)

theorem one_le_countOcc_nil_left (z : List Char) : 1 ≤ countOcc [] z := by
  induction z with
  | nil => simp [countOcc, listStarts]
  | cons c z ih => exact le_trans ih (countOcc_le_cons [] c z)

theorem countOcc_le_append_right (p y z : List Char) :
    countOcc p y ≤ countOcc p (y ++ z) := by
  induction y with
  | nil =>
    cases p with
    | nil => exact one_le_countOcc_nil_left z
    | cons a as =>
      rw [countOcc_nil (by simp)]
      exact Nat.zero_le _
  | cons c y ih =>
    have h1 : (if listStarts p (c :: y) = true then 1 else 0) ≤
        (if listStarts p ((c :: y) ++ z) = true then 1 else 0) := by
      cases hs : listStarts p (c :: y)
      · simp
      · rw [listStarts_mono_append z hs]
    exact Nat.add_le_add h1 ih

theorem countOcc_le_of_starts_ext (p q s : List Char) :
    countOcc (p ++ q) s ≤ countOcc p s := by
  induction s with
  | nil =>
    show (if listStarts (p ++ q) [] = true then 1 else 0) ≤
      (if listStarts p [] = true then 1 else 0)
    cases h : listStarts (p ++ q) []
    · simp
    · rw [listStarts_of_starts_append h]
  | cons c s ih =>
    have h1 : (if listStarts (p ++ q) (c :: s) = true then 1 else 0) ≤
        (if listStarts p (c :: s) = true then 1 else 0) := by
      cases h : listStarts (p ++ q) (c :: s)
      · simp
      · rw [listStarts_of_starts_append h]
    exact Nat.add_le_add h1 ih

theorem countOcc_eq_zero_iff {p : List Char} (hp : p ≠ []) (s : List Char) :
    countOcc p s = 0 ↔ ∀ i, listStarts p (s.drop i) = false := by
  induction s with
  | nil =>
    simp only [countOcc_nil hp, List.drop_nil, true_iff]
    intro i
    exact listStarts_ne_nil_nil hp
  | cons c s ih =>
    simp only [countOcc]
    constructor
    · intro h i
      have h1 : listStarts p (c :: s) = false := by
        by_contra hne
        simp only [Bool.not_eq_false] at hne
        simp [hne] at h
      have h2 : countOcc p s = 0 := by omega
      cases i with
      | zero => simpa using h1
      | succ j => simpa using (ih.mp h2) j
    · intro h
      have h1 := h 0
      simp only [List.drop_zero] at h1
      have h2 : ∀ i, listStarts p (s.drop i) = false := fun i => by
        simpa using h (i + 1)
      simp [h1, ih.mpr h2]

theorem countOcc_pos_of_starts {p : List Char} (s : List Char) (k : Nat)
    (hk : listStarts p (s.drop k) = true) : 1 ≤ countOcc p s := by
  induction s generalizing k with
  | nil =>
    simp only [List.drop_nil] at hk
    have : p = [] := by
      cases p with
      | nil => rfl
      | cons a as => simp [listStarts] at hk
    subst this
    simp [countOcc, listStarts]
  | cons c s ih =>
    cases k with
    | zero =>
      simp only [List.drop_zero] at hk
      simp [countOcc, hk]
    | succ j =>
      simp only [List.drop_succ_cons] at hk
      have := ih j hk
      simp only [countOcc]
      omega

theorem countOcc_eq_one_of_unique {p : List Char} (s : List Char) (k : Nat)
    (hk : listStarts p (s.drop k) = true)
    (huniq : ∀ i, listStarts p (s.drop i) = true → i = k) :
    countOcc p s = 1 := by
  have hp : p ≠ [] := by
    rintro rfl
    have h0 : (0 : Nat) = k := huniq 0 (by simp [listStarts])
    have h1 : (1 : Nat) = k := huniq 1 (by simp [listStarts])
    omega
  induction s generalizing k with
  | nil =>
    exfalso
    simp only [List.drop_nil] at hk
    rw [listStarts_ne_nil_nil hp] at hk
    exact Bool.false_ne_true hk
  | cons c s ih =>
    cases k with
    | zero =>
      simp only [List.drop_zero] at hk
      have hz : countOcc p s = 0 := by
        rw [countOcc_eq_zero_iff hp]
        intro i
        by_contra hne
        simp only [Bool.not_eq_false] at hne
        have : i + 1 = 0 := huniq (i + 1) (by simpa using hne)
        omega
      simp [countOcc, hk, hz]
    | succ j =>
      have hhead : listStarts p (c :: s) = false := by
        by_contra hne
        simp only [Bool.not_eq_false] at hne
        have : (0 : Nat) = j + 1 := huniq 0 (by simpa using hne)
        omega
      have hs : listStarts p (s.drop j) = true := by simpa using hk
      have huniq2 : ∀ i, listStarts p (s.drop i) = true → i = j := by
        intro i hi
        have : i + 1 = j + 1 := huniq (i + 1) (by simpa using hi)
        omega
      simp [countOcc, hhead, ih j hs huniq2]

theorem listStarts_get {p s : List Char} (h : listStarts p s = true)
    {j : Nat} (hj : j < p.length) : s.get? j = p.get? j := by
  rcases listStarts_iff.mp h with ⟨t, rfl⟩
  exact List.get?_append hj

/-! ### How `str.strip()` interacts with occurrence counts -/

theorem dropWhile_append_cons (f : Char → Bool) (u : List Char) (h : Char)
    (t : List Char) (hf : f h = false) :
    (u ++ h :: t).dropWhile f = u.dropWhile f ++ h :: t := by
  induction u with
  | nil => simp [List.dropWhile_cons, hf]
  | cons c u ih =>
    cases hc : f c with
    | true => simp [List.dropWhile_cons, hc, ih]
    | false => simp [List.dropWhile_cons, hc]

/-- After `strip()`, a string that decomposes as non-whitespace-headed
prefix, pattern with non-whitespace last character, and tail still
decomposes that way, with the tail losing only trailing whitespace. -/
theorem pyStrip_decomp {s : String} {q B as : List Char} {a e : Char}
    (hs : s.data = (a :: as) ++ (q ++ [e]) ++ B)
    (ha : isPyWs a = false) (he : isPyWs e = false) :
    ∃ Bt rest, (pyStrip s).data = (a :: as) ++ (q ++ [e]) ++ Bt ∧
      B = Bt ++ rest := by
  have h1 : s.data.dropWhile isPyWs = (a :: as) ++ (q ++ [e]) ++ B := by
    rw [hs]
    simp [List.dropWhile_cons, ha]
  have h2 : ((a :: as) ++ (q ++ [e]) ++ B).reverse =
      B.reverse ++ e :: (q.reverse ++ (a :: as).reverse) := by
    simp [List.reverse_append]
  have h3 : (B.reverse ++ e :: (q.reverse ++ (a :: as).reverse)).dropWhile isPyWs
      = B.reverse.dropWhile isPyWs ++ e :: (q.reverse ++ (a :: as).reverse) :=
    dropWhile_append_cons isPyWs _ e _ he
  refine ⟨(B.reverse.dropWhile isPyWs).reverse,
    (B.reverse.takeWhile isPyWs).reverse, ?_, ?_⟩
  · show (((s.data.dropWhile isPyWs).reverse.dropWhile isPyWs).reverse : List Char) = _
    rw [h1, h2, h3]
    simp [List.reverse_append]
  · have hsplit : List.takeWhile isPyWs B.reverse ++
        List.dropWhile isPyWs B.reverse = B.reverse :=
      List.takeWhile_append_dropWhile isPyWs B.reverse
    conv_lhs => rw [← List.reverse_reverse B, ← hsplit, List.reverse_append]

/-- If the pattern occurs exactly once in the unstripped text, it still
occurs exactly once after `strip()` (pattern ending in a non-whitespace
character, text headed by a non-whitespace character). -/
theorem countOcc_pyStrip_eq_one {s : String} {q B as : List Char} {a e : Char}
    (hs : s.data = (a :: as) ++ (q ++ [e]) ++ B)
    (ha : isPyWs a = false) (he : isPyWs e = false)
    (htot : countOcc (q ++ [e]) s.data = 1) :
    countOcc (q ++ [e]) (pyStrip s).data = 1 := by
  rcases pyStrip_decomp hs ha he with ⟨Bt, rest, hstrip, hB⟩
  have hge : 1 ≤ countOcc (q ++ [e]) (pyStrip s).data := by
    rw [hstrip]
    apply countOcc_pos_of_starts _ ((a :: as).length)
    rw [List.append_assoc, List.drop_left]
    exact listStarts_self_append _ _
  have hle : countOcc (q ++ [e]) (pyStrip s).data ≤ 1 := by
    have : s.data = (pyStrip s).data ++ rest := by
      rw [hs, hstrip, hB]
      simp [List.append_assoc]
    calc countOcc (q ++ [e]) (pyStrip s).data
        ≤ countOcc (q ++ [e]) ((pyStrip s).data ++ rest) :=
          countOcc_le_append_right _ _ _
      _ = countOcc (q ++ [e]) s.data := by rw [← this]
      _ = 1 := htot
  omega

/-- The stripped translation still contains any block that occurs in the
unstripped text between a non-whitespace-headed prefix and a tail, when
the block ends in a non-whitespace character. -/
theorem one_le_countOcc_pyStrip {s : String} {q B as : List Char} {a e : Char}
    (hs : s.data = (a :: as) ++ (q ++ [e]) ++ B)
    (ha : isPyWs a = false) (he : isPyWs e = false) :
    1 ≤ countOcc (q ++ [e]) (pyStrip s).data := by
  rcases pyStrip_decomp hs ha he with ⟨Bt, rest, hstrip, hB⟩
  rw [hstrip]
  apply countOcc_pos_of_starts _ ((a :: as).length)
  rw [List.append_assoc, List.drop_left]
  exact listStarts_self_append _ _

/-! ## Helper facts for the claim theorems -/

theorem string_append_ne_empty (x : String) (c : Char) (cs : List Char)
    (hx : x.data = c :: cs) (y : String) : x ++ y ≠ "" := by
  intro h
  have hd := congrArg String.data h
  rw [String.data_append, hx] at hd
  simp at hd

/-! ## Claim theorems -/

theorem except_bind_error {α β : Type} (m : String)
    (f : α → Except String β) :
    (Except.error m : Except String α) >>= f = Except.error m := rfl

theorem except_bind_ok {α β : Type} (a : α) (f : α → Except String β) :
    (Except.ok a : Except String α) >>= f = f a := rfl

/-- C2: for every `ParsedQuery` whose `table` field is absent (`None`) or
empty, `translate` fails with the `TranslationError` raised by
`_get_cube_uri` ("No table specified in query"), and, being an error
result, returns no SPARQL string at all. -/
theorem c2_translate_fails_without_table (cm : List (String × String))
    (q : ParsedQuery) (h : q.table = none ∨ q.table = some "") :
    translate cm q = .error "No table specified in query" := by
  have hcube : get_cube_uri cm q.table = .error "No table specified in query" := by
    rcases h with h | h <;> simp [get_cube_uri, h]
  simp [translate, build_where_clause, hcube, except_bind_error, except_bind_ok]

/-- Witness for C2 at a concrete input: the all-default `ParsedQuery`. -/
theorem c2_translate_fails_without_table_witness :
    translate [] { } = .error "No table specified in query" :=
  c2_translate_fails_without_table [] { } (Or.inl rfl)

/-- C3: for every statement whose sqlparse-detected type is not SELECT,
`parse` fails with a `ParseError` whose message names the detected
statement kind, and no `ParsedQuery` is produced (the error result carries
no query, so nothing reaches the translator). -/
theorem c3_non_select_rejected (stmt : Statement)
    (h : stmt.stmtType ≠ "SELECT") :
    parse stmt =
      .error ("Only SELECT statements are supported, got: " ++ stmt.stmtType) := by
  simp [parse, h]

/-- Witness for C3: `DELETE FROM x` parses to a DELETE-type statement. -/
theorem c3_non_select_rejected_witness :
    parse { stmtType := "DELETE",
            tokens := [.tok .dml "DELETE", wsTok, .tok .keyword "FROM", wsTok,
              .group .identifier "x" (some "x") none [.tok .nameT "x"]] } =
      .error "Only SELECT statements are supported, got: DELETE" :=
  c3_non_select_rejected _ (by decide)

/-- C10: in the SELECT clause built by `_build_select_clause`, the result
variable written after AS in an aggregate expression is the raw
`alias or name` text with the lowercased function suffix appended, with no
identifier sanitization, whereas the aggregate's argument variable and the
plain projection variables go through `_sanitize_var_name`. -/
theorem c10_aggregate_alias_unsanitized (c : SelectColumn)
    (f : AggregateFunction) (hagg : c.aggregate = some f) :
    (c.distinct = false →
      columnExpr c =
        "(" ++ f.val ++ "(" ++ ("?" ++ sanitize_var_name c.name) ++ ") AS ?" ++
          pyOr c.aliasName c.name ++ "_" ++ pyLower f.val ++ ")") ∧
    (c.distinct = true →
      columnExpr c =
        "(" ++ f.val ++ "(DISTINCT " ++ ("?" ++ sanitize_var_name c.name) ++
          ") AS ?" ++ pyOr c.aliasName c.name ++ "_" ++ pyLower f.val ++ ")") ∧
    (∀ d : SelectColumn, d.aggregate = none →
      columnExpr d = "?" ++ sanitize_var_name (pyOr d.aliasName d.name)) := by
  refine ⟨?_, ?_, ?_⟩
  · intro hd; simp [columnExpr, hagg, hd]
  · intro hd; simp [columnExpr, hagg, hd]
  · intro d hd; simp [columnExpr, hd, column_to_variable]

/-- Witness for C10: a COUNT over a column aliased `a.b` emits
`AS ?a.b_count` with the dot intact, while the argument variable is the
sanitized `?x`. -/
theorem c10_aggregate_alias_unsanitized_witness :
    columnExpr { name := "x",
                 aliasName := some "a.b",
                 aggregate := some AggregateFunction.COUNT } =
      "(COUNT(?x) AS ?a.b_count)" := by
  have h := (c10_aggregate_alias_unsanitized
    { name := "x",
      aliasName := some "a.b",
      aggregate := some AggregateFunction.COUNT }
    AggregateFunction.COUNT rfl).1 rfl
  rw [h]
  decide

/-- C6: with an empty `group_by`, `_build_group_by_clause` emits a GROUP BY
clause exactly when some selected column is an aggregate and some column is
a non-aggregate non-wildcard column, and that clause lists the sanitized
variables of all non-aggregate non-wildcard columns; with a non-empty
`group_by`, the clause is built from the explicit list (explicit GROUP BY
takes precedence over inference).  `translate` interpolates this clause
verbatim between the WHERE block and the ORDER BY clause. -/
theorem c6_group_by_clause (q : ParsedQuery) :
    (q.group_by = [] →
      ((build_group_by_clause q = "" ↔
          ¬(q.columns.any (fun c => c.aggregate.isSome) = true ∧
            q.columns.filter (fun c => c.aggregate.isNone && c.name ≠ "*") ≠ [])) ∧
        (q.columns.any (fun c => c.aggregate.isSome) = true →
          q.columns.filter (fun c => c.aggregate.isNone && c.name ≠ "*") ≠ [] →
          build_group_by_clause q =
            "GROUP BY " ++ strJoin " "
              ((q.columns.filter
                  (fun c => c.aggregate.isNone && c.name ≠ "*")).map
                (fun c => "?" ++ sanitize_var_name c.name))))) ∧
    (q.group_by ≠ [] →
      build_group_by_clause q =
        "GROUP BY " ++ strJoin " "
          (q.group_by.map (fun g => "?" ++ sanitize_var_name g))) := by
  have hmain : q.group_by.isEmpty = true →
      build_group_by_clause q =
        (if (q.columns.any fun c => c.aggregate.isSome) &&
            !(q.columns.filter
                (fun c => c.aggregate.isNone && c.name ≠ "*")).isEmpty then
          "GROUP BY " ++ strJoin " "
            ((q.columns.filter
                (fun c => c.aggregate.isNone && c.name ≠ "*")).map
              (fun c => "?" ++ sanitize_var_name c.name))
        else "") := by
    intro hempty
    rw [build_group_by_clause, if_pos hempty]
  have hLfalse : q.columns.filter
      (fun c => c.aggregate.isNone && c.name ≠ "*") ≠ [] →
      (q.columns.filter
        (fun c => c.aggregate.isNone && c.name ≠ "*")).isEmpty = false := by
    intro hnon
    cases hLc : (q.columns.filter
        (fun c => c.aggregate.isNone && c.name ≠ "*")).isEmpty
    · rfl
    · exact absurd (List.isEmpty_iff.mp hLc) hnon
  constructor
  · intro hgb
    have hempty : q.group_by.isEmpty = true := by rw [hgb]; rfl
    constructor
    · constructor
      · intro hcl hc
        obtain ⟨hagg, hnon⟩ := hc
        rw [hmain hempty, hagg, hLfalse hnon] at hcl
        simp only [Bool.not_false, Bool.and_self, if_true] at hcl
        exact string_append_ne_empty "GROUP BY " 'G' "ROUP BY ".data rfl _ hcl
      · intro hcond
        rw [hmain hempty]
        cases hA : (q.columns.any fun c => c.aggregate.isSome)
        · simp
        · have hL : (q.columns.filter
              (fun c => c.aggregate.isNone && c.name ≠ "*")).isEmpty = true := by
            cases hLc : (q.columns.filter
                (fun c => c.aggregate.isNone && c.name ≠ "*")).isEmpty
            · refine absurd ⟨hA, ?_⟩ hcond
              intro hnil
              rw [hnil] at hLc
              exact absurd hLc (by simp)
            · rfl
          rw [hL]
          simp
    · intro hagg hnon
      rw [hmain hempty, hagg, hLfalse hnon]
      simp
  · intro hgb
    have hempty : q.group_by.isEmpty = false := by
      cases hg : q.group_by.isEmpty
      · rfl
      · exact absurd (List.isEmpty_iff.mp hg) hgb
    rw [build_group_by_clause, if_neg (by rw [hempty]; exact Bool.false_ne_true)]

/-! ### Column preservation through the post-SELECT stages (for C5) -/

theorem distinctStep_columns (ts : List Tok) (r : ParsedQuery) :
    (distinctStep ts r).2.columns = r.columns := by
  cases ts with
  | nil => rfl
  | cons t rest =>
    cases hc : (t.ttypeIs .keyword && pyUpper t.value = "DISTINCT") <;>
      simp [distinctStep, hc]

theorem parse_from_clause_columns :
    ∀ (ts : List Tok) (r : ParsedQuery),
      (parse_from_clause ts r).2.columns = r.columns
  | [], _ => rfl
  | t :: rest, r => by
    simp only [parse_from_clause]
    by_cases hc : (t.ttypeIs .keyword && pyUpper t.value = "FROM") = true
    · rw [if_pos hc]
      cases rest with
      | nil => rfl
      | cons t2 rest2 =>
        cases t2 with
        | tok tt v => rfl
        | group k v rn al subs => cases k <;> rfl
    · rw [if_neg hc]
      exact parse_from_clause_columns rest r

theorem parse_where_clause_columns :
    ∀ (ts : List Tok) (r : ParsedQuery) (ts2 : List Tok) (r2 : ParsedQuery),
      parse_where_clause ts r = .ok (ts2, r2) → r2.columns = r.columns
  | [], r, ts2, r2, h => by
    simp only [parse_where_clause, Except.ok.injEq, Prod.mk.injEq] at h
    rw [← h.2]
  | t :: rest, r, ts2, r2, h => by
    cases t with
    | group k v rn al subs =>
      cases k with
      | whereG =>
        simp only [parse_where_clause] at h
        cases hc : parse_conditions subs with
        | error m => rw [hc, except_bind_error] at h; cases h
        | ok conds =>
          rw [hc, except_bind_ok] at h
          simp only [Except.ok.injEq, Prod.mk.injEq] at h
          rw [← h.2]
      | identifier =>
        simp only [parse_where_clause] at h
        split at h
        · simp only [Except.ok.injEq, Prod.mk.injEq] at h
          rw [← h.2]
        · exact parse_where_clause_columns rest r ts2 r2 h
      | identifierList =>
        simp only [parse_where_clause] at h
        split at h
        · simp only [Except.ok.injEq, Prod.mk.injEq] at h
          rw [← h.2]
        · exact parse_where_clause_columns rest r ts2 r2 h
      | function =>
        simp only [parse_where_clause] at h
        split at h
        · simp only [Except.ok.injEq, Prod.mk.injEq] at h
          rw [← h.2]
        · exact parse_where_clause_columns rest r ts2 r2 h
      | paren =>
        simp only [parse_where_clause] at h
        split at h
        · simp only [Except.ok.injEq, Prod.mk.injEq] at h
          rw [← h.2]
        · exact parse_where_clause_columns rest r ts2 r2 h
      | comparison =>
        simp only [parse_where_clause] at h
        split at h
        · simp only [Except.ok.injEq, Prod.mk.injEq] at h
          rw [← h.2]
        · exact parse_where_clause_columns rest r ts2 r2 h
    | tok tt v =>
      simp only [parse_where_clause] at h
      split at h
      · simp only [Except.ok.injEq, Prod.mk.injEq] at h
        rw [← h.2]
      · exact parse_where_clause_columns rest r ts2 r2 h

theorem parse_group_by_clause_columns :
    ∀ (ts : List Tok) (r : ParsedQuery) (ts2 : List Tok) (r2 : ParsedQuery),
      parse_group_by_clause ts r = .ok (ts2, r2) → r2.columns = r.columns
  | [], r, ts2, r2, h => by
    simp only [parse_group_by_clause, Except.ok.injEq, Prod.mk.injEq] at h
    rw [← h.2]
  | t :: rest, r, ts2, r2, h => by
    simp only [parse_group_by_clause] at h
    by_cases hg : (t.ttypeIs .keyword && pyUpper t.value = "GROUP") = true
    · rw [if_pos hg] at h
      rcases hrest2 : (match rest with
          | b :: rest1 => if b.ttypeIs .keyword then rest1 else b :: rest1
          | [] => ([] : List Tok)) with _ | ⟨c, rest3⟩ <;> simp only [hrest2] at h
      · simp only [Except.ok.injEq, Prod.mk.injEq] at h
        rw [← h.2]
      · cases hn : groupNamesOf c with
        | error m =>
          simp only [hn, except_bind_error] at h
          exact Except.noConfusion h
        | ok names =>
          simp only [hn, except_bind_ok] at h
          simp only [Except.ok.injEq, Prod.mk.injEq] at h
          rw [← h.2]
    · rw [if_neg hg] at h
      by_cases ho : (t.ttypeIs .keyword &&
          (pyUpper t.value = "ORDER" || pyUpper t.value = "LIMIT" ||
           pyUpper t.value = "HAVING")) = true
      · rw [if_pos ho] at h
        simp only [Except.ok.injEq, Prod.mk.injEq] at h
        rw [← h.2]
      · rw [if_neg ho] at h
        exact parse_group_by_clause_columns rest r ts2 r2 h

theorem parse_order_by_clause_columns :
    ∀ (ts : List Tok) (r : ParsedQuery) (ts2 : List Tok) (r2 : ParsedQuery),
      parse_order_by_clause ts r = .ok (ts2, r2) → r2.columns = r.columns
  | [], r, ts2, r2, h => by
    simp only [parse_order_by_clause, Except.ok.injEq, Prod.mk.injEq] at h
    rw [← h.2]
  | t :: rest, r, ts2, r2, h => by
    simp only [parse_order_by_clause] at h
    by_cases hg : (t.ttypeIs .keyword && pyUpper t.value = "ORDER") = true
    · rw [if_pos hg] at h
      rcases hrest2 : (match rest with
          | b :: rest1 => if b.ttypeIs .keyword then rest1 else b :: rest1
          | [] => ([] : List Tok)) with _ | ⟨c, rest3⟩ <;> simp only [hrest2] at h
      · simp only [Except.ok.injEq, Prod.mk.injEq] at h
        rw [← h.2]
      · cases hn : orderColsOf c with
        | error m =>
          simp only [hn, except_bind_error] at h
          exact Except.noConfusion h
        | ok cols =>
          simp only [hn, except_bind_ok] at h
          simp only [Except.ok.injEq, Prod.mk.injEq] at h
          rw [← h.2]
    · rw [if_neg hg] at h
      by_cases ho : (t.ttypeIs .keyword && pyUpper t.value = "LIMIT") = true
      · rw [if_pos ho] at h
        simp only [Except.ok.injEq, Prod.mk.injEq] at h
        rw [← h.2]
      · rw [if_neg ho] at h
        exact parse_order_by_clause_columns rest r ts2 r2 h

theorem parse_limit_clause_columns :
    ∀ (ts : List Tok) (r : ParsedQuery),
      (parse_limit_clause ts r).columns = r.columns := by
  intro ts r
  induction ts, r using parse_limit_clause.induct with
  | case1 r => rfl
  | case2 t r h => rw [parse_limit_clause.eq_def]; simp [h]
  | case3 t r h t1 rest n hn =>
    rw [parse_limit_clause.eq_def]; simp [h, hn]
  | case4 t r h t1 rest hn =>
    rw [parse_limit_clause.eq_def]; simp [h, hn]
  | case5 t r h h2 => rw [parse_limit_clause.eq_def]; simp [h, h2]
  | case6 t r h h2 t1 =>
    rw [parse_limit_clause.eq_def]
    simp only [h, h2]
    cases hpi : pyIntParse t1.value <;> simp [hpi]
  | case7 t r h h2 t1 r2 t2 rest ih =>
    rw [parse_limit_clause.eq_def]
    simp only [h, h2]
    cases hpi : pyIntParse t1.value with
    | none =>
      have hx : r2 = r := by unfold r2; rw [hpi]
      rw [hx] at ih
      simp only [hpi]
      exact ih
    | some n =>
      have hx : r2 = { r with offset := some n } := by unfold r2; rw [hpi]
      rw [hx] at ih
      simp only [hpi]
      exact ih
  | case8 t rest r h h2 ih =>
    rw [parse_limit_clause.eq_def]
    simp only [h, h2]
    simpa using ih

/-- The stages after the SELECT clause never touch `columns`. -/
theorem parse_rest_columns (ts : List Tok) (r : ParsedQuery)
    (q : ParsedQuery) (h : parse_rest ts r = .ok q) : q.columns = r.columns := by
  rw [parse_rest] at h
  rcases hfr : parse_from_clause ts r with ⟨ts1, r1⟩
  simp only [hfr] at h
  cases hw : parse_where_clause ts1 r1 with
  | error m =>
    simp only [hw, except_bind_error] at h
    exact Except.noConfusion h
  | ok p2 =>
    rcases p2 with ⟨ts2, r2⟩
    simp only [hw, except_bind_ok] at h
    cases hg : parse_group_by_clause ts2 r2 with
    | error m =>
      simp only [hg, except_bind_error] at h
      exact Except.noConfusion h
    | ok p3 =>
      rcases p3 with ⟨ts3, r3⟩
      simp only [hg, except_bind_ok] at h
      cases ho : parse_order_by_clause ts3 r3 with
      | error m =>
        simp only [show parse_having_clause ts3 r3 = (ts3, r3) from rfl, ho,
          except_bind_error] at h
        exact Except.noConfusion h
      | ok p4 =>
        rcases p4 with ⟨ts4, r4⟩
        simp only [show parse_having_clause ts3 r3 = (ts3, r3) from rfl, ho,
          except_bind_ok] at h
        simp only [Except.ok.injEq] at h
        calc q.columns = (parse_limit_clause ts4 r4).columns := by rw [← h]
          _ = r4.columns := parse_limit_clause_columns ts4 r4
          _ = r3.columns := parse_order_by_clause_columns ts3 r3 ts4 r4 ho
          _ = r2.columns := parse_group_by_clause_columns ts2 r2 ts3 r3 hg
          _ = r1.columns := parse_where_clause_columns ts1 r1 ts2 r2 hw
          _ = r.columns := by
              rw [show r1 = (parse_from_clause ts r).2 from by rw [hfr]]
              exact parse_from_clause_columns ts r

/-- C5 counterexample: `SELECT FROM t` parses successfully (its sqlparse
statement type is SELECT) and the returned `ParsedQuery` has an empty
`columns` sequence, violating the "at least one entry" invariant. -/
theorem c5_columns_invariant_counterexample :
    parse c5Stmt = .ok { table := some "t" } ∧
      ({ table := some "t" } : ParsedQuery).columns = [] := ⟨rfl, rfl⟩

/-- C5 amended: `parse` may succeed with an empty `columns` sequence (see
the counterexample); what holds is that whenever the token at the
column-list position is the wildcard token, the returned query has exactly
the single wildcard column entry, so a wildcard produced by the wildcard
branch never co-occurs with other columns. -/
theorem c5_wildcard_sole_column (st : Statement) (q : ParsedQuery)
    (w : Tok) (rest : List Tok)
    (hw : w.ttypeIs .wildcard = true)
    (hshape : (distinctStep (skipPastSelect
        (st.tokens.filter (fun t => !t.isWs))) {}).1 = w :: rest)
    (hok : parse st = .ok q) :
    q.columns = [{ name := "*" }] := by
  by_cases hty : st.stmtType ≠ "SELECT"
  · rw [parse, if_pos hty] at hok
    exact Except.noConfusion hok
  · rw [parse, if_neg hty] at hok
    rcases hds2 : distinctStep (skipPastSelect
        (st.tokens.filter (fun t => !t.isWs))) {} with ⟨ts0, r0⟩
    have hts0 : ts0 = w :: rest := by
      rw [hds2] at hshape
      simpa using hshape
    subst hts0
    have hr0 : r0.columns = [] := by
      have hd := distinctStep_columns (skipPastSelect
        (st.tokens.filter (fun t => !t.isWs))) {}
      rw [hds2] at hd
      simpa using hd
    have hsel : parse_select_clause
        (st.tokens.filter (fun t => !t.isWs)) {} =
        .ok (rest, { r0 with columns := r0.columns ++ [{ name := "*" }] }) := by
      simp only [parse_select_clause, hds2, hw, if_true]
    simp only [hsel, except_bind_ok] at hok
    have hq := parse_rest_columns rest _ q hok
    rw [hq]
    show r0.columns ++ [{ name := "*" }] = [{ name := "*" }]
    rw [hr0]
    rfl

/-- Witness for C5's amended theorem: `SELECT * FROM t`. -/
theorem c5_wildcard_sole_column_witness :
    ({ columns := [{ name := "*" }], table := some "t" } : ParsedQuery).columns
      = [{ name := "*" }] :=
  c5_wildcard_sole_column c5aStmt _ (Tok.tok .wildcard "*")
    [.tok .keyword "FROM", .group .identifier "t" (some "t") none [.tok .nameT "t"]]
    rfl rfl rfl

/-- Witness for C6: explicit `GROUP BY region` with columns
`region, AVG(value)` produces the explicit clause. -/
theorem c6_group_by_clause_witness :
    build_group_by_clause
      { columns := [{ name := "region" },
          { name := "value", aggregate := some .AVG }],
        table := some "co2_emissions", group_by := ["region"] } =
      "GROUP BY " ++ strJoin " "
        ((["region"] : List String).map (fun g => "?" ++ sanitize_var_name g)) :=
  (c6_group_by_clause _).2 (by decide)

/-- Shape of `_condition_to_filter` results: an `IN` condition produces the
empty string (no branch exists for it); every other operator produces a
single line beginning `  FILTER(`. -/
theorem condition_to_filter_shape (c : WhereCondition) (f : String)
    (h : condition_to_filter c = .ok f) :
    (c.operator = .IN ∧ f = "") ∨
      (c.operator ≠ .IN ∧ listStarts "  FILTER(".data f.data = true ∧
        f ≠ "") := by
  cases hop : c.operator <;> rw [condition_to_filter, hop] at h
  case IN =>
    left
    simp only [Except.ok.injEq] at h
    exact ⟨rfl, h.symm⟩
  case LIKE =>
    cases hv : c.value <;> rw [hv] at h <;>
      first
        | exact Except.noConfusion h
        | · right
            simp only [Except.ok.injEq] at h
            subst h
            refine ⟨by simp, ?_, ?_⟩
            · rw [show ("  FILTER(REGEX(" ++ ("?" ++ sanitize_var_name c.column)
                  ++ ", \"" : String) = "  FILTER(" ++ ("REGEX(" ++
                  ("?" ++ sanitize_var_name c.column) ++ ", \"") from by
                    simp [String.ext_iff, String.data_append]]
              simp only [String.data_append]
              rw [← List.append_assoc, ← String.data_append, ← String.data_append]
              rw [String.data_append]
              exact listStarts_self_append _ _
            · intro hne
              have := congrArg String.data hne
              simp [String.data_append] at this
  all_goals
    right
    simp only [Except.ok.injEq] at h
    subst h
    refine ⟨by simp, ?_, ?_⟩
    · simp only [String.data_append]
      simp only [List.append_assoc]
      exact listStarts_self_append _ _
    · intro hne
      have := congrArg String.data hne
      simp [String.data_append] at this

/-- The filter lines of `_build_where_clause`: one line per non-IN
condition, none for IN conditions, each beginning `  FILTER(`. -/
theorem condLines_shape : ∀ (cs : List WhereCondition) (fl : List String),
    condLines cs = .ok fl →
      fl.length = (cs.filter (fun c => !(c.operator = .IN))).length ∧
        ∀ f ∈ fl, listStarts "  FILTER(".data f.data = true
  | [], fl, h => by
    simp only [condLines, Except.ok.injEq] at h
    subst h
    exact ⟨rfl, by intro f hf; cases hf⟩
  | c :: rest, fl, h => by
    rw [condLines] at h
    cases hc : condition_to_filter c with
    | error m =>
      rw [hc, except_bind_error] at h
      exact Except.noConfusion h
    | ok f =>
      rw [hc, except_bind_ok] at h
      cases hr : condLines rest with
      | error m =>
        rw [hr, except_bind_error] at h
        exact Except.noConfusion h
      | ok fs =>
        rw [hr, except_bind_ok] at h
        obtain ⟨hlen, hall⟩ := condLines_shape rest fs hr
        rcases condition_to_filter_shape c f hc with ⟨hin, hf⟩ | ⟨hnin, hst, hne⟩
        · rw [hf] at h
          rw [if_neg (by exact fun hcon => hcon rfl)] at h
          simp only [Except.ok.injEq] at h
          subst h
          constructor
          · rw [List.filter_cons_of_neg (by simp [hin])]
            exact hlen
          · exact hall
        · rw [if_pos hne] at h
          simp only [Except.ok.injEq] at h
          subst h
          constructor
          · rw [List.filter_cons_of_pos (by simpa using hnin)]
            simp [hlen]
          · intro g hg
            rcases List.mem_cons.mp hg with rfl | hg2
            · exact hst
            · exact hall g hg2

set_option maxRecDepth 40000 in
/-- C4 counterexample: a `ParsedQuery` accepted by `translate` whose single
`WhereCondition` uses the declared operator `IN` produces a SPARQL string
with no `FILTER` clause at all, refuting "every operator in the declared
operator set, including IN, yields exactly one FILTER clause". -/
theorem c4_in_condition_counterexample :
    isOkE (translate [] c4Query) = true ∧
      countOcc "FILTER".data (okStr (translate [] c4Query)).data = 0 :=
  ⟨rfl, by rfl⟩

/-- C4 amended: in the WHERE block built by `_build_where_clause`, each
`WhereCondition` whose operator is not `IN` yields exactly one line, a
`FILTER(...)` clause, attached after the triple-pattern block; an `IN`
condition yields no FILTER clause (`_condition_to_filter` has no branch
for it and returns the empty string, which the loop skips). -/
theorem c4_filters_amended (cm : List (String × String)) (q : ParsedQuery)
    (uri : String) (fl : List String)
    (huri : get_cube_uri cm q.table = .ok uri)
    (hfl : condLines q.where_conditions = .ok fl) :
    build_where_clause cm q = .ok (strJoin "\n" (patternBlock uri q ++ fl)) ∧
      fl.length =
        (q.where_conditions.filter (fun c => !(c.operator = .IN))).length ∧
      (∀ f ∈ fl, listStarts "  FILTER(".data f.data = true) ∧
      (∀ c : WhereCondition, c.operator = .IN →
        condition_to_filter c = .ok "") := by
  obtain ⟨hlen, hall⟩ := condLines_shape q.where_conditions fl hfl
  refine ⟨?_, hlen, hall, ?_⟩
  · rw [build_where_clause]
    simp only [huri, hfl, except_bind_ok]
  · intro c hin
    rw [condition_to_filter, hin]

/-- Witness for C4's amended theorem: one `=` condition yields exactly one
FILTER line after the two anchor lines. -/
theorem c4_filters_amended_witness :
    build_where_clause []
        { columns := [{ name := "*" }], table := some "x",
          where_conditions :=
            [{ column := "year", operator := .EQ, value := .int 2020 }] } =
      .ok (strJoin "\n"
        (patternBlock "https://environment.ld.admin.ch/foen/cube/x"
            { columns := [{ name := "*" }], table := some "x",
              where_conditions :=
                [{ column := "year", operator := .EQ, value := .int 2020 }] } ++
          ["  FILTER(?year = 2020)"])) :=
  (c4_filters_amended []
    { columns := [{ name := "*" }], table := some "x",
      where_conditions :=
        [{ column := "year", operator := .EQ, value := .int 2020 }] }
    "https://environment.ld.admin.ch/foen/cube/x" ["  FILTER(?year = 2020)"]
    rfl rfl).1

set_option maxRecDepth 40000 in
/-- C7: parsing and translating
`SELECT COUNT(DISTINCT region) AS n FROM co2_emissions` produces a SPARQL
string whose SELECT clause is exactly
`SELECT (COUNT(DISTINCT ?region) AS ?n_count)` (so it contains that
aggregate expression) and which contains no GROUP BY clause. -/
theorem c7_count_distinct_pipeline :
    isOkE (translate_sql_to_sparql [] c7Stmt) = true ∧
      build_select_clause (parsedOr (parse c7Stmt)) =
        "SELECT (COUNT(DISTINCT ?region) AS ?n_count)" ∧
      1 ≤ countOcc "(COUNT(DISTINCT ?region) AS ?n_count)".data
          (okStr (translate_sql_to_sparql [] c7Stmt)).data ∧
      countOcc "GROUP BY".data
          (okStr (translate_sql_to_sparql [] c7Stmt)).data = 0 :=
  ⟨rfl, rfl, by decide, by rfl⟩

set_option maxRecDepth 40000 in
/-- C8: on `SELECT * FROM x WHERE year = 2020 ORDER BY year DESC LIMIT 5
OFFSET 10` the pipeline emits `FILTER(?year = 2020)` (unquoted numeric)
and `LIMIT 5`, but, contrary to the claim, no `ORDER BY` clause and no
`OFFSET` clause: sqlparse delivers `ORDER BY` as a single keyword token
which `_parse_order_by_clause` never matches (it compares against
`ORDER`), and `_parse_limit_clause` breaks out of its scan right after
LIMIT, so the trailing OFFSET is never read. -/
theorem c8_order_offset_lost :
    isOkE (translate_sql_to_sparql [] c8Stmt) = true ∧
      (parsedOr (parse c8Stmt)).limit = some 5 ∧
      (parsedOr (parse c8Stmt)).offset = none ∧
      (parsedOr (parse c8Stmt)).order_by = [] ∧
      1 ≤ countOcc "FILTER(?year = 2020)".data
          (okStr (translate_sql_to_sparql [] c8Stmt)).data ∧
      1 ≤ countOcc "LIMIT 5".data
          (okStr (translate_sql_to_sparql [] c8Stmt)).data ∧
      countOcc "ORDER BY".data
          (okStr (translate_sql_to_sparql [] c8Stmt)).data = 0 ∧
      countOcc "OFFSET".data
          (okStr (translate_sql_to_sparql [] c8Stmt)).data = 0 :=
  ⟨rfl, rfl, rfl, rfl, by decide, by decide, by rfl, by rfl⟩

/-- C9: a LIMIT (or OFFSET) clause whose operand is not a valid integer
literal is recovered silently: `parse` does not fail, the corresponding
field stays `None`, and the result equals the parse of the same statement
with the clause omitted.  The final conjunct shows the OFFSET arm of
`_parse_limit_clause` directly: a malformed operand leaves the query
unchanged and the scan continues. -/
theorem c9_malformed_limit_recovered (v : String)
    (hv : pyIntParse v = none) :
    parse (c9LimitStmt v) =
        .ok { columns := [{ name := "a" }], table := some "t" } ∧
      parse (c9OffsetStmt v) =
        .ok { columns := [{ name := "a" }], table := some "t" } ∧
      parse c9BaseStmt =
        .ok { columns := [{ name := "a" }], table := some "t" } ∧
      (∀ (rest : List Tok) (r : ParsedQuery),
        parse_limit_clause (Tok.tok .keyword "OFFSET" ::
            Tok.group .identifier v (some v) none [Tok.tok .nameT v] ::
              rest) r =
          match rest with
          | [] => r
          | _ :: rest3 => parse_limit_clause rest3 r) := by
  refine ⟨?_, rfl, rfl, ?_⟩
  · have hred : parse (c9LimitStmt v) =
        .ok (match pyIntParse v with
          | some n =>
            { columns := [{ name := "a" }], table := some "t",
              limit := some n }
          | none => { columns := [{ name := "a" }], table := some "t" }) := rfl
    rw [hred, hv]
  · intro rest r
    cases rest with
    | nil =>
      rw [parse_limit_clause.eq_def]
      simp [Tok.ttypeIs, Tok.value, pyUpper, hv]
    | cons t2 rest3 =>
      rw [parse_limit_clause.eq_def]
      simp [Tok.ttypeIs, Tok.value, pyUpper, hv]

/-- Witness for C9 at the concrete malformed operand `abc`. -/
theorem c9_malformed_limit_recovered_witness :
    parse (c9LimitStmt "abc") =
      .ok { columns := [{ name := "a" }], table := some "t" } :=
  (c9_malformed_limit_recovered "abc" rfl).1

/-! ### Character-exclusion helpers for the anchor-count argument (C1) -/

theorem contains_eq_false {a : Char} {l : List Char} (h : a ∉ l) :
    l.contains a = false := by
  cases hc : l.contains a
  · rfl
  · exfalso
    rcases List.contains_iff_exists_mem_beq.mp hc with ⟨b, hb, he⟩
    exact h ((beq_iff_eq.mp he) ▸ hb)

theorem notMem_str_append {a : Char} {x y : String}
    (hx : a ∉ x.data) (hy : a ∉ y.data) : a ∉ (x ++ y).data := by
  rw [String.data_append]
  intro hm
  rcases List.mem_append.mp hm with h | h
  · exact hx h
  · exact hy h

theorem mem_strJoin {a : Char} {sep : String} :
    ∀ {ls : List String}, a ∈ (strJoin sep ls).data →
      a ∈ sep.data ∨ ∃ s ∈ ls, a ∈ s.data
  | [], h => by simp [strJoin] at h
  | [s], h => Or.inr ⟨s, List.mem_singleton_self s, by simpa [strJoin] using h⟩
  | s :: s2 :: rest, h => by
    rw [show strJoin sep (s :: s2 :: rest) =
        s ++ sep ++ strJoin sep (s2 :: rest) from rfl] at h
    rw [String.data_append, String.data_append] at h
    rcases List.mem_append.mp h with h1 | h1
    · rcases List.mem_append.mp h1 with h2 | h2
      · exact Or.inr ⟨s, List.mem_cons_self s _, h2⟩
      · exact Or.inl h2
    · rcases mem_strJoin h1 with h2 | ⟨t, ht, h2⟩
      · exact Or.inl h2
      · exact Or.inr ⟨t, List.mem_cons_of_mem s ht, h2⟩

theorem notMem_strJoin {a : Char} {sep : String} {ls : List String}
    (hsep : a ∉ sep.data) (h : ∀ s ∈ ls, a ∉ s.data) :
    a ∉ (strJoin sep ls).data := by
  intro hm
  rcases mem_strJoin hm with h1 | ⟨s, hs, h1⟩
  · exact hsep h1
  · exact h s hs h1

theorem notMem_sanitize {a : Char} (hu : a ≠ '_') (hv : a ≠ 'v')
    {s : String} (hs : a ∉ s.data) : a ∉ (sanitize_var_name s).data := by
  have hmap : a ∉ s.data.map (fun c =>
      if c = '.' || c = '-' || c = ':' || c = '/' || c = '#' then '_' else c) := by
    intro hm
    rcases List.mem_map.mp hm with ⟨b, hb, heq⟩
    by_cases hrep : (b = '.' || b = '-' || b = ':' || b = '/' || b = '#') = true
    · rw [if_pos hrep] at heq
      exact hu heq.symm
    · rw [if_neg hrep] at heq
      exact hs (heq ▸ hb)
  rw [sanitize_var_name]
  rcases hcs : s.data.map (fun c =>
      if c = '.' || c = '-' || c = ':' || c = '/' || c = '#' then '_' else c) with
    _ | ⟨c, cs⟩
  · simp [hcs]
  · rw [hcs] at hmap
    simp only [hcs]
    by_cases hd : c.isDigit = true
    · rw [if_pos hd]
      intro hm
      rw [String.data_append] at hm
      rcases List.mem_append.mp hm with h1 | h1
      · exact hv (by simpa using h1)
      · exact hmap (by simpa using h1)
    · rw [if_neg hd]
      intro h1
      exact hmap (by simpa using h1)

theorem notMem_pyOr {a : Char} {al : Option String} {n : String}
    (hal : ∀ x, al = some x → a ∉ x.data) (hn : a ∉ n.data) :
    a ∉ (pyOr al n).data := by
  cases al with
  | none => exact hn
  | some x =>
    rw [pyOr]
    by_cases hx : x = ""
    · rw [if_pos hx]; exact hn
    · rw [if_neg hx]; exact hal x rfl

theorem natStrGo_chars {c : Char} :
    ∀ (f n : Nat) (acc : List Char), c ∈ natStrGo f n acc →
      c ∈ acc ∨ ∃ k, k < 10 ∧ c = Char.ofNat (48 + k)
  | 0, _, acc, h => Or.inl h
  | f + 1, n, acc, h => by
    rw [natStrGo] at h
    by_cases hn : n < 10
    · rw [if_pos hn] at h
      rcases List.mem_cons.mp h with h1 | h1
      · exact Or.inr ⟨n % 10, Nat.mod_lt n (by omega), h1⟩
      · exact Or.inl h1
    · rw [if_neg hn] at h
      rcases natStrGo_chars f (n / 10) _ h with h1 | h1
      · rcases List.mem_cons.mp h1 with h2 | h2
        · exact Or.inr ⟨n % 10, Nat.mod_lt n (by omega), h2⟩
        · exact Or.inl h2
      · exact Or.inr h1

theorem notMem_pyIntStr {a : Char}
    (hk : ∀ k, k < 10 → a ≠ Char.ofNat (48 + k)) (hm : a ≠ '-') (i : Int) :
    a ∉ (pyIntStr i).data := by
  cases i with
  | ofNat n =>
    intro h
    rcases natStrGo_chars _ _ _ (by simpa [pyIntStr] using h) with h1 | ⟨k, hk10, he⟩
    · exact absurd h1 (List.not_mem_nil a)
    · exact hk k hk10 he
  | negSucc m =>
    intro h
    rw [pyIntStr, String.data_append] at h
    rcases List.mem_append.mp h with h1 | h1
    · exact hm (by simpa using h1)
    · rcases natStrGo_chars _ _ _ (by simpa using h1) with h2 | ⟨k, hk10, he⟩
      · exact absurd h2 (List.not_mem_nil a)
      · exact hk k hk10 he

theorem notMem_likePattern_list {a : Char} (hd : a ≠ '.') (hstar : a ≠ '*') :
    ∀ {l : List Char}, a ∉ l →
      a ∉ l.foldr (fun c acc =>
        if c = '%' then '.' :: '*' :: acc
        else if c = '_' then '.' :: acc else c :: acc) []
  | [], _ => by simp
  | c :: cs, h => by
    have hcs : a ∉ cs := fun hmm => h (List.mem_cons_of_mem c hmm)
    have hac : a ≠ c := fun he => h (he ▸ List.mem_cons_self c cs)
    have ih := notMem_likePattern_list hd hstar hcs
    simp only [List.foldr_cons]
    by_cases h1 : c = '%'
    · rw [if_pos h1]
      intro hmm
      rcases List.mem_cons.mp hmm with h2 | h2
      · exact hd h2
      · rcases List.mem_cons.mp h2 with h3 | h3
        · exact hstar h3
        · exact ih h3
    · rw [if_neg h1]
      by_cases h2 : c = '_'
      · rw [if_pos h2]
        intro hmm
        rcases List.mem_cons.mp hmm with h3 | h3
        · exact hd h3
        · exact ih h3
      · rw [if_neg h2]
        intro hmm
        rcases List.mem_cons.mp hmm with h3 | h3
        · exact hac h3
        · exact ih h3

theorem notMem_likePattern {a : Char} (hd : a ≠ '.') (hstar : a ≠ '*')
    {s : String} (hs : a ∉ s.data) : a ∉ (likePattern s).data :=
  notMem_likePattern_list hd hstar hs

theorem pyStartswith_http_false {s : String} (h : ':' ∉ s.data) :
    pyStartswith s "http://" = false ∧ pyStartswith s "https://" = false := by
  constructor
  · cases hc : pyStartswith s "http://"
    · rfl
    · exact absurd (mem_of_listStarts hc (by decide)) h
  · cases hc : pyStartswith s "https://"
    · rfl
    · exact absurd (mem_of_listStarts hc (by decide)) h

theorem notMem_digits_colon : ∀ k, k < 10 → ':' ≠ Char.ofNat (48 + k) := by
  decide

theorem format_value_colon_free {v : PyVal} (hv : cleanVal v) :
    ':' ∉ (format_value v).data := by
  cases v with
  | str s =>
    obtain ⟨h1, _, _⟩ := hv
    obtain ⟨hw1, hw2⟩ := pyStartswith_http_false h1
    rw [format_value, hw1, hw2]
    simp only [Bool.or_self, Bool.false_eq_true, if_false]
    exact notMem_str_append (notMem_str_append (by decide) h1) (by decide)
  | int i => exact notMem_pyIntStr notMem_digits_colon (by decide) i
  | float lit => exact hv.1
  | bool b => cases b <;> decide
  | pynone => decide

theorem pyStrOf_colon_free {v : PyVal} (hv : cleanVal v) :
    ':' ∉ (pyStrOf v).data := by
  cases v with
  | str s => exact hv.1
  | int i => exact notMem_pyIntStr notMem_digits_colon (by decide) i
  | float lit => exact hv.1
  | bool b => cases b <;> decide
  | pynone => decide

theorem var_name_colon_free {s : String} (hs : ':' ∉ s.data) :
    ':' ∉ ("?" ++ sanitize_var_name s).data :=
  notMem_str_append (by decide) (notMem_sanitize (by decide) (by decide) hs)

theorem ctf_colon_free {c : WhereCondition} {f : String}
    (hcol : cleanChars c.column) (hval : cleanVal c.value)
    (h : condition_to_filter c = .ok f) : ':' ∉ f.data := by
  have hvar := var_name_colon_free hcol.1
  cases hop : c.operator <;> rw [condition_to_filter, hop] at h
  case EQ =>
    simp only [Except.ok.injEq] at h
    subst h
    exact notMem_str_append (notMem_str_append (notMem_str_append
      (notMem_str_append (by decide) hvar) (by decide))
      (format_value_colon_free hval)) (by decide)
  case NE =>
    simp only [Except.ok.injEq] at h
    subst h
    exact notMem_str_append (notMem_str_append (notMem_str_append
      (notMem_str_append (by decide) hvar) (by decide))
      (format_value_colon_free hval)) (by decide)
  case LT =>
    simp only [Except.ok.injEq] at h
    subst h
    exact notMem_str_append (notMem_str_append (notMem_str_append
      (notMem_str_append (by decide) hvar) (by decide))
      (pyStrOf_colon_free hval)) (by decide)
  case LE =>
    simp only [Except.ok.injEq] at h
    subst h
    exact notMem_str_append (notMem_str_append (notMem_str_append
      (notMem_str_append (by decide) hvar) (by decide))
      (pyStrOf_colon_free hval)) (by decide)
  case GT =>
    simp only [Except.ok.injEq] at h
    subst h
    exact notMem_str_append (notMem_str_append (notMem_str_append
      (notMem_str_append (by decide) hvar) (by decide))
      (pyStrOf_colon_free hval)) (by decide)
  case GE =>
    simp only [Except.ok.injEq] at h
    subst h
    exact notMem_str_append (notMem_str_append (notMem_str_append
      (notMem_str_append (by decide) hvar) (by decide))
      (pyStrOf_colon_free hval)) (by decide)
  case LIKE =>
    cases hvv : c.value <;> rw [hvv] at h <;>
      try exact Except.noConfusion h
    case str s =>
      simp only [Except.ok.injEq] at h
      subst h
      rw [hvv] at hval
      exact notMem_str_append (notMem_str_append (notMem_str_append
        (notMem_str_append (by decide) hvar) (by decide))
        (notMem_likePattern (by decide) (by decide) hval.1)) (by decide)
  case IS_NULL =>
    simp only [Except.ok.injEq] at h
    subst h
    exact notMem_str_append (notMem_str_append (by decide) hvar) (by decide)
  case IS_NOT_NULL =>
    simp only [Except.ok.injEq] at h
    subst h
    exact notMem_str_append (notMem_str_append (by decide) hvar) (by decide)
  case IN =>
    simp only [Except.ok.injEq] at h
    subst h
    simp

theorem aggval_colon_free (f : AggregateFunction) :
    ':' ∉ (f.val).data ∧ ':' ∉ (pyLower f.val).data := by
  cases f <;> exact ⟨by decide, by decide⟩

theorem columnExpr_colon_free {c : SelectColumn}
    (hn : ':' ∉ c.name.data)
    (ha : ∀ x, c.aliasName = some x → ':' ∉ x.data) :
    ':' ∉ (columnExpr c).data := by
  have hor : ':' ∉ (pyOr c.aliasName c.name).data := notMem_pyOr ha hn
  cases hagg : c.aggregate with
  | none =>
    rw [columnExpr, hagg]
    exact notMem_str_append (by decide)
      (notMem_sanitize (by decide) (by decide) hor)
  | some f =>
    obtain ⟨hv1, hv2⟩ := aggval_colon_free f
    have hinner : ':' ∉ ("?" ++ sanitize_var_name c.name).data :=
      var_name_colon_free hn
    rw [columnExpr, hagg]
    cases hd : c.distinct
    · simp only [hd, Bool.false_eq_true, if_false]
      exact notMem_str_append (notMem_str_append (notMem_str_append
        (notMem_str_append (notMem_str_append (notMem_str_append
          (notMem_str_append (notMem_str_append (by decide) hv1)
            (by decide)) hinner) (by decide)) hor) (by decide)) hv2)
        (by decide)
    · simp only [hd, if_true]
      exact notMem_str_append (notMem_str_append (notMem_str_append
        (notMem_str_append (notMem_str_append (notMem_str_append
          (notMem_str_append (notMem_str_append (by decide) hv1)
            (by decide)) hinner) (by decide)) hor) (by decide)) hv2)
        (by decide)

theorem build_select_clause_colon_free {q : ParsedQuery}
    (hcols : ∀ c ∈ q.columns, ':' ∉ c.name.data ∧
      ∀ x, c.aliasName = some x → ':' ∉ x.data) :
    ':' ∉ (build_select_clause q).data := by
  rw [build_select_clause]
  have hdist : ':' ∉ (if q.distinct then "DISTINCT " else "").data := by
    cases q.distinct <;> decide
  by_cases hsw : isSingleWildcard q.columns = true
  · rw [if_pos hsw]
    exact notMem_str_append (notMem_str_append (by decide) hdist) (by decide)
  · rw [if_neg hsw]
    refine notMem_str_append (notMem_str_append (by decide) hdist) ?_
    refine notMem_strJoin (by decide) ?_
    intro s hsmem
    rcases List.mem_map.mp hsmem with ⟨c, hc, rfl⟩
    exact columnExpr_colon_free (hcols c hc).1 (hcols c hc).2

theorem column_to_pattern_lt_free {name : String} (hcl : cleanChars name) :
    '<' ∉ (column_to_pattern name).data := by
  obtain ⟨h1, h2, _⟩ := hcl
  obtain ⟨hw1, hw2⟩ := pyStartswith_http_false h1
  rw [column_to_pattern, hw1, hw2]
  simp only [Bool.or_self, Bool.false_eq_true, if_false]
  rw [contains_eq_false h1]
  simp only [Bool.false_and, Bool.false_eq_true, if_false]
  exact notMem_str_append (notMem_str_append (notMem_str_append
    (notMem_str_append (by decide) h2) (by decide))
    (notMem_sanitize (by decide) (by decide) h2)) (by decide)

theorem build_group_by_colon_free {q : ParsedQuery}
    (hcols : ∀ c ∈ q.columns, ':' ∉ c.name.data)
    (hgb : ∀ g ∈ q.group_by, ':' ∉ g.data) :
    ':' ∉ (build_group_by_clause q).data := by
  rw [build_group_by_clause]
  by_cases hge : q.group_by.isEmpty = true
  · rw [if_pos hge]
    by_cases hc : ((q.columns.any fun c => c.aggregate.isSome) &&
        !(q.columns.filter
            (fun c => c.aggregate.isNone && c.name ≠ "*")).isEmpty) = true
    · rw [if_pos hc]
      refine notMem_str_append (by decide) (notMem_strJoin (by decide) ?_)
      intro s hsmem
      rcases List.mem_map.mp hsmem with ⟨c, hcmem, rfl⟩
      exact var_name_colon_free (hcols c (List.mem_of_mem_filter hcmem))
    · rw [if_neg hc]
      simp
  · rw [if_neg hge]
    refine notMem_str_append (by decide) (notMem_strJoin (by decide) ?_)
    intro s hsmem
    rcases List.mem_map.mp hsmem with ⟨g, hgm, rfl⟩
    exact var_name_colon_free (hgb g hgm)

theorem build_order_by_colon_free {q : ParsedQuery}
    (hob : ∀ o ∈ q.order_by, ':' ∉ o.column.data) :
    ':' ∉ (build_order_by_clause q).data := by
  rw [build_order_by_clause]
  by_cases he : q.order_by.isEmpty = true
  · rw [if_pos he]; simp
  · rw [if_neg he]
    refine notMem_str_append (by decide) (notMem_strJoin (by decide) ?_)
    intro s hsmem
    rcases List.mem_map.mp hsmem with ⟨o, hom, rfl⟩
    have hvar := var_name_colon_free (hob o hom)
    cases ho : o.ascending
    · simp only [ho, Bool.false_eq_true, if_false]
      exact notMem_str_append (notMem_str_append (by decide) hvar) (by decide)
    · simp only [ho, if_true]
      exact hvar

theorem build_limit_offset_colon_free (q : ParsedQuery) :
    ':' ∉ (build_limit_offset q).data := by
  rw [build_limit_offset]
  refine notMem_strJoin (by decide) ?_
  intro s hsmem
  rcases List.mem_append.mp hsmem with hs1 | hs1
  · cases hl : q.limit with
    | none => rw [hl] at hs1; cases hs1
    | some l =>
      rw [hl] at hs1
      rcases List.mem_singleton.mp hs1 with rfl
      exact notMem_str_append (by decide)
        (notMem_pyIntStr notMem_digits_colon (by decide) l)
  · cases hl : q.offset with
    | none => rw [hl] at hs1; cases hs1
    | some o =>
      rw [hl] at hs1
      rcases List.mem_singleton.mp hs1 with rfl
      exact notMem_str_append (by decide)
        (notMem_pyIntStr notMem_digits_colon (by decide) o)

theorem countOcc_cons_nl {p : List Char} (hp : p ≠ []) (hnl : '\n' ∉ p)
    (y : List Char) : countOcc p ('\n' :: y) = countOcc p y := by
  have h := countOcc_append_cons_nl hp hnl [] y
  simpa [countOcc_nil hp] using h

/-- The marker `cube:observedBy <` occurs exactly once in the anchor line,
provided the URI contains no `<`. -/
theorem countOcc_anchor_line (uri : String) (hu : '<' ∉ uri.data) :
    countOcc "cube:observedBy <".data
      ("    cube:observedBy <" ++ uri ++ "> .").data = 1 := by
  have hdata : ("    cube:observedBy <" ++ uri ++ "> .").data =
      "    ".data ++ ("cube:observedBy <".data ++ (uri.data ++ "> .".data)) := by
    rw [String.data_append, String.data_append]
    rw [show ("    cube:observedBy <" : String).data =
      "    ".data ++ "cube:observedBy <".data from rfl]
    simp [List.append_assoc]
  apply countOcc_eq_one_of_unique _ 4
  · rw [hdata]
    rw [show (4 : Nat) = ("    ".data : List Char).length from rfl,
      List.drop_left]
    exact listStarts_self_append _ _
  · intro i hi
    have h16 : (("    cube:observedBy <" ++ uri ++ "> .").data.drop i).get? 16 =
        some '<' := by
      rw [listStarts_get hi (by decide : (16 : Nat) <
        ("cube:observedBy <".data : List Char).length)]
      rfl
    rw [List.get?_drop] at h16
    have hdata2 : ("    cube:observedBy <" ++ uri ++ "> .").data =
        "    cube:observedBy <".data ++ (uri.data ++ "> .".data) := by
      rw [String.data_append, String.data_append, List.append_assoc]
    rw [hdata2] at h16
    by_cases hlt : i + 16 < 21
    · rw [List.get?_append (by simpa using hlt)] at h16
      have hfin : ∀ j, j < 21 →
          (("    cube:observedBy <".data : List Char).get? j = some '<' →
            j = 20) := by decide
      have := hfin (i + 16) hlt h16
      omega
    · push_neg at hlt
      rw [List.get?_append_right (by simpa using hlt)] at h16
      have hmem := List.get?_mem h16
      rcases List.mem_append.mp hmem with hmu | hmr
      · exact absurd hmu hu
      · exact absurd hmr (by decide)

/-- A positive occurrence count yields an explicit decomposition. -/
theorem exists_decomp_of_countOcc_pos {p s : List Char}
    (hp : p ≠ []) (h : 1 ≤ countOcc p s) : ∃ A B, s = A ++ p ++ B := by
  by_contra hno
  push_neg at hno
  have hzero : countOcc p s = 0 := by
    rw [countOcc_eq_zero_iff hp]
    intro i
    cases hst : listStarts p (s.drop i)
    · rfl
    · exfalso
      rcases listStarts_iff.mp hst with ⟨t, ht⟩
      have hsplit : s = s.take i ++ p ++ t := by
        rw [List.append_assoc, ← ht, List.take_append_drop]
      exact absurd hsplit (hno (s.take i) t)
  omega

/-- `pyStrip` keeps any block that ends in a non-whitespace character when
the string begins with a non-whitespace character. -/
theorem pyStrip_decomp2 {s : String} {A q B : List Char} {e a : Char}
    {as : List Char}
    (hs : s.data = A ++ (q ++ [e]) ++ B) (hhead : s.data = a :: as)
    (ha : isPyWs a = false) (he : isPyWs e = false) :
    ∃ Bt rest, (pyStrip s).data = A ++ (q ++ [e]) ++ Bt ∧ B = Bt ++ rest := by
  have h1 : s.data.dropWhile isPyWs = A ++ (q ++ [e]) ++ B := by
    conv_lhs => rw [hhead]
    rw [List.dropWhile_cons, ha]
    simp only [Bool.false_eq_true, if_false]
    rw [← hhead, hs]
  have h2 : (A ++ (q ++ [e]) ++ B).reverse =
      B.reverse ++ e :: (q.reverse ++ A.reverse) := by
    simp [List.reverse_append]
  have h3 : (B.reverse ++ e :: (q.reverse ++ A.reverse)).dropWhile isPyWs
      = B.reverse.dropWhile isPyWs ++ e :: (q.reverse ++ A.reverse) :=
    dropWhile_append_cons isPyWs _ e _ he
  refine ⟨(B.reverse.dropWhile isPyWs).reverse,
    (B.reverse.takeWhile isPyWs).reverse, ?_, ?_⟩
  · show (((s.data.dropWhile isPyWs).reverse.dropWhile isPyWs).reverse :
      List Char) = _
    rw [h1, h2, h3]
    simp [List.reverse_append]
  · have hsplit : List.takeWhile isPyWs B.reverse ++
        List.dropWhile isPyWs B.reverse = B.reverse :=
      List.takeWhile_append_dropWhile isPyWs B.reverse
    conv_lhs => rw [← List.reverse_reverse B, ← hsplit, List.reverse_append]

/-- If a pattern ending in a non-whitespace character occurs exactly once
before `strip()`, it occurs exactly once after, provided the text begins
with a non-whitespace character. -/
theorem countOcc_pyStrip_eq_one2 {s : String} {q : List Char} {e a : Char}
    {as : List Char}
    (hhead : s.data = a :: as) (ha : isPyWs a = false) (he : isPyWs e = false)
    (htot : countOcc (q ++ [e]) s.data = 1) :
    countOcc (q ++ [e]) (pyStrip s).data = 1 := by
  obtain ⟨A, B, hAB⟩ :=
    exists_decomp_of_countOcc_pos (p := q ++ [e]) (s := s.data)
      (by simp) (by omega)
  rcases pyStrip_decomp2 hAB hhead ha he with ⟨Bt, rest, hstrip, hB⟩
  have hge : 1 ≤ countOcc (q ++ [e]) (pyStrip s).data := by
    rw [hstrip]
    apply countOcc_pos_of_starts _ A.length
    rw [List.append_assoc, List.drop_left]
    exact listStarts_self_append _ _
  have hle : countOcc (q ++ [e]) (pyStrip s).data ≤ 1 := by
    have hdec : s.data = (pyStrip s).data ++ rest := by
      rw [hAB, hstrip, hB]
      simp [List.append_assoc]
    calc countOcc (q ++ [e]) (pyStrip s).data
        ≤ countOcc (q ++ [e]) ((pyStrip s).data ++ rest) :=
          countOcc_le_append_right _ _ _
      _ = countOcc (q ++ [e]) s.data := by rw [← hdec]
      _ = 1 := htot
  omega

theorem head_append_of_ne {x : String} {a : Char} {as : List Char}
    (hx : x.data = a :: as) (y : String) :
    (x ++ y).data = a :: (as ++ y.data) := by
  rw [String.data_append, hx]
  rfl

theorem strJoin_cons_exists (sep : String) (x : String) (xs : List String) :
    ∃ t : String, strJoin sep (x :: xs) = x ++ t ∧
      (strJoin sep (x :: xs)).data = x.data ++ t.data := by
  cases xs with
  | nil =>
    refine ⟨"", ?_, ?_⟩
    · show x = x ++ ""
      apply String.ext
      rw [String.data_append]
      simp
    · rw [show strJoin sep [x] = x from rfl]
      simp
  | cons y ys =>
    refine ⟨sep ++ strJoin sep (y :: ys), ?_, ?_⟩
    · show x ++ sep ++ strJoin sep (y :: ys) = x ++ (sep ++ strJoin sep (y :: ys))
      apply String.ext
      simp [String.data_append]
    · rw [show strJoin sep (x :: y :: ys) =
        x ++ sep ++ strJoin sep (y :: ys) from rfl]
      simp [String.data_append]

/-- `_condition_to_filter` succeeds whenever LIKE values are strings. -/
theorem ctf_ok (c : WhereCondition)
    (hl : c.operator = .LIKE → ∃ s, c.value = .str s) :
    ∃ f, condition_to_filter c = .ok f := by
  cases hop : c.operator <;> rw [condition_to_filter, hop]
  case LIKE =>
    obtain ⟨s, hv⟩ := hl hop
    rw [hv]
    exact ⟨_, rfl⟩
  all_goals exact ⟨_, rfl⟩

theorem condLines_ok :
    ∀ (cs : List WhereCondition),
      (∀ c ∈ cs, c.operator = .LIKE → ∃ s, c.value = .str s) →
      ∃ fl, condLines cs = .ok fl
  | [], _ => ⟨[], rfl⟩
  | c :: rest, h => by
    obtain ⟨f, hf⟩ := ctf_ok c (h c (List.mem_cons_self c rest) )
    obtain ⟨fl, hfl⟩ := condLines_ok rest
      (fun d hd => h d (List.mem_cons_of_mem c hd))
    rw [condLines, hf, except_bind_ok, hfl, except_bind_ok]
    by_cases hne : f ≠ ""
    · rw [if_pos hne]
      exact ⟨f :: fl, rfl⟩
    · rw [if_neg hne]
      exact ⟨fl, rfl⟩

theorem condLines_mem :
    ∀ (cs : List WhereCondition) (fl : List String),
      condLines cs = .ok fl →
      ∀ f ∈ fl, ∃ c ∈ cs, condition_to_filter c = .ok f
  | [], fl, h, f, hf => by
    simp only [condLines, Except.ok.injEq] at h
    subst h
    cases hf
  | c :: rest, fl, h, f, hf => by
    rw [condLines] at h
    cases hc : condition_to_filter c with
    | error m => rw [hc, except_bind_error] at h; exact Except.noConfusion h
    | ok g =>
      rw [hc, except_bind_ok] at h
      cases hr : condLines rest with
      | error m => rw [hr, except_bind_error] at h; exact Except.noConfusion h
      | ok fs =>
        rw [hr, except_bind_ok] at h
        by_cases hg : g ≠ ""
        · rw [if_pos hg] at h
          simp only [Except.ok.injEq] at h
          subst h
          rcases List.mem_cons.mp hf with rfl | hf2
          · exact ⟨c, List.mem_cons_self c rest, hc⟩
          · obtain ⟨d, hd, hdf⟩ := condLines_mem rest fs hr f hf2
            exact ⟨d, List.mem_cons_of_mem c hd, hdf⟩
        · rw [if_neg hg] at h
          simp only [Except.ok.injEq] at h
          subst h
          obtain ⟨d, hd, hdf⟩ := condLines_mem rest fs hr f hf
          exact ⟨d, List.mem_cons_of_mem c hd, hdf⟩

set_option maxHeartbeats 4000000 in
set_option maxRecDepth 100000 in
/-- C1: for every `ParsedQuery` of a valid single-table SELECT statement
(table present and non-empty; column, alias, condition and grouping names
and literal values free of colon, angle bracket and newline, as the parser
produces for statements without JOIN, subquery or compound WHERE) and any
cube mapping whose resolved URI contains no `<`,
`translate` succeeds and its output contains exactly one occurrence of the
anchor text `cube:observedBy <resolved-uri>`, where the resolved URI
follows the three-tier precedence of `_get_cube_uri`: the `cube_mapping`
entry for the table when present, else the table name itself when it
starts with `http://` or `https://`, else the fixed base path
`https://environment.ld.admin.ch/foen/cube/` with the table name appended.
(The claim is formalized at the `ParsedQuery` boundary; the SQL text to
token stream step is the external sqlparse library.) -/
theorem c1_anchor_triple_exactly_once
    (cm : List (String × String)) (q : ParsedQuery) (t uri : String)
    (ht : q.table = some t) (ht0 : t ≠ "")
    (huri : get_cube_uri cm q.table = .ok uri)
    (hu : '<' ∉ uri.data)
    (hcols : ∀ c ∈ q.columns, cleanChars c.name ∧
      ∀ x, c.aliasName = some x → cleanChars x)
    (hconds : ∀ w ∈ q.where_conditions, cleanChars w.column ∧
      cleanVal w.value ∧ (w.operator = .LIKE → ∃ s, w.value = .str s))
    (hgb : ∀ g ∈ q.group_by, cleanChars g)
    (hob : ∀ o ∈ q.order_by, cleanChars o.column) :
    ∃ s, translate cm q = .ok s ∧
      countOcc ("cube:observedBy <" ++ uri ++ ">").data s.data = 1 ∧
      uri = (match cm.lookup t with
        | some u => u
        | none =>
          if pyStartswith t "http://" || pyStartswith t "https://" then t
          else "https://environment.ld.admin.ch/foen/cube/" ++ t) := by
  obtain ⟨fl, hfl⟩ := condLines_ok q.where_conditions
    (fun c hc => (hconds c hc).2.2)
  have hwb : build_where_clause cm q =
      .ok (strJoin "\n" (patternBlock uri q ++ fl)) := by
    rw [build_where_clause]
    simp only [huri, hfl, except_bind_ok]
  have htr : translate cm q = .ok (pyStrip (translateRaw
      (build_select_clause q) (strJoin "\n" (patternBlock uri q ++ fl))
      (build_group_by_clause q) (build_order_by_clause q)
      (build_limit_offset q))) := by
    rw [translate]
    simp only [hwb, except_bind_ok]
  set SEL := build_select_clause q with hSELdef
  set WB := strJoin "\n" (patternBlock uri q ++ fl) with hWBdef
  set GB := build_group_by_clause q with hGBdef
  set OB := build_order_by_clause q with hOBdef
  set LO := build_limit_offset q with hLOdef
  have hm : ("cube:observedBy <".data : List Char) ≠ [] := by decide
  have hnl : '\n' ∉ ("cube:observedBy <".data : List Char) := by decide
  have hcolon : ':' ∈ ("cube:observedBy <".data : List Char) := by decide
  have hlt : '<' ∈ ("cube:observedBy <".data : List Char) := by decide
  -- zero occurrence counts for the marker in every segment except the
  -- anchor line
  have hP0 : countOcc "cube:observedBy <".data
      get_prefix_declarations.data = 0 := by decide
  have hW0 : countOcc "cube:observedBy <".data ("WHERE \x7b" : String).data
      = 0 := by decide
  have hRb0 : countOcc "cube:observedBy <".data ("\x7d" : String).data
      = 0 := by decide
  have hSEL0 : countOcc "cube:observedBy <".data SEL.data = 0 :=
    countOcc_zero_of_mem hcolon (build_select_clause_colon_free
      (fun c hc => ⟨(hcols c hc).1.1,
        fun x hx => ((hcols c hc).2 x hx).1⟩))
  have hGB0 : countOcc "cube:observedBy <".data GB.data = 0 :=
    countOcc_zero_of_mem hcolon (build_group_by_colon_free
      (fun c hc => (hcols c hc).1.1) (fun g hg => (hgb g hg).1))
  have hOB0 : countOcc "cube:observedBy <".data OB.data = 0 :=
    countOcc_zero_of_mem hcolon (build_order_by_colon_free
      (fun o ho => (hob o ho).1))
  have hLO0 : countOcc "cube:observedBy <".data LO.data = 0 :=
    countOcc_zero_of_mem hcolon (build_limit_offset_colon_free q)
  -- the WHERE block contains the marker exactly once (in the anchor line)
  have hWB1 : countOcc "cube:observedBy <".data WB.data = 1 := by
    rw [hWBdef, countOcc_strJoin_nl hm hnl]
    rw [show patternBlock uri q ++ fl =
      "  ?observation a cube:Observation ;" ::
        ("    cube:observedBy <" ++ uri ++ "> .") ::
        (((q.columns.filter (fun c => c.name ≠ "*")).map
          (fun c => column_to_pattern c.name)) ++ fl) from rfl]
    simp only [List.map_cons, List.sum_cons]
    have h1 : countOcc "cube:observedBy <".data
        ("  ?observation a cube:Observation ;" : String).data = 0 := by decide
    have h2 := countOcc_anchor_line uri hu
    have h3 : (List.map (fun s => countOcc "cube:observedBy <".data s.data)
        (((q.columns.filter (fun c => c.name ≠ "*")).map
          (fun c => column_to_pattern c.name)) ++ fl)).sum = 0 := by
      apply List.sum_eq_zero
      intro x hx
      rcases List.mem_map.mp hx with ⟨s, hs, rfl⟩
      rcases List.mem_append.mp hs with hs1 | hs1
      · rcases List.mem_map.mp hs1 with ⟨c, hc, rfl⟩
        exact countOcc_zero_of_mem hlt (column_to_pattern_lt_free
          (hcols c (List.mem_of_mem_filter hc)).1)
      · obtain ⟨c, hcmem, hcf⟩ := condLines_mem _ _ hfl s hs1
        exact countOcc_zero_of_mem hcolon (ctf_colon_free
          (hconds c hcmem).1 (hconds c hcmem).2.1 hcf)
    rw [h1, h2, h3]
  -- split the pre-strip output at its newlines
  have hdataraw : (translateRaw SEL WB GB OB LO).data =
      get_prefix_declarations.data ++ '\n' :: ('\n' :: (SEL.data ++ '\n' ::
        (("WHERE \x7b" : String).data ++ '\n' :: (WB.data ++ '\n' ::
          (("\x7d" : String).data ++ '\n' :: (GB.data ++ '\n' ::
            (OB.data ++ '\n' :: (LO.data ++ '\n' :: [])))))))) := by
    rw [translateRaw]
    simp [String.data_append, List.append_assoc]
  have hsum : countOcc "cube:observedBy <".data
      (translateRaw SEL WB GB OB LO).data = 1 := by
    rw [hdataraw, countOcc_append_cons_nl hm hnl, countOcc_cons_nl hm hnl,
      countOcc_append_cons_nl hm hnl, countOcc_append_cons_nl hm hnl,
      countOcc_append_cons_nl hm hnl, countOcc_append_cons_nl hm hnl,
      countOcc_append_cons_nl hm hnl, countOcc_append_cons_nl hm hnl,
      countOcc_append_cons_nl hm hnl, countOcc_nil hm]
    rw [hP0, hSEL0, hW0, hWB1, hRb0, hGB0, hOB0, hLO0]
  -- the anchor text in list form
  have hanch : ("cube:observedBy <" ++ uri ++ ">").data =
      ("cube:observedBy <".data ++ uri.data) ++ ['>'] := by
    rw [String.data_append, String.data_append,
      show (">" : String).data = ['>'] from rfl]
  -- at most one anchor occurrence (the anchor extends the marker)
  have hle : countOcc ("cube:observedBy <" ++ uri ++ ">").data
      (translateRaw SEL WB GB OB LO).data ≤ 1 := by
    rw [hanch, List.append_assoc]
    have hle1 := countOcc_le_of_starts_ext "cube:observedBy <".data
      (uri.data ++ ['>']) (translateRaw SEL WB GB OB LO).data
    omega
  -- at least one anchor occurrence (inside the anchor line of the block)
  have hl2pos : 1 ≤ countOcc ("cube:observedBy <" ++ uri ++ ">").data
      ("    cube:observedBy <" ++ uri ++ "> .").data := by
    have hl2 : ("    cube:observedBy <" ++ uri ++ "> .").data =
        "    ".data ++ (("cube:observedBy <" ++ uri ++ ">").data ++
          (" ." : String).data) := by
      rw [String.data_append, String.data_append, String.data_append,
        String.data_append,
        show ("    cube:observedBy <" : String).data =
          ("    " : String).data ++ ("cube:observedBy <" : String).data
          from rfl,
        show ("> ." : String).data =
          (">" : String).data ++ (" ." : String).data from rfl]
      simp [List.append_assoc]
    rw [hl2]
    apply countOcc_pos_of_starts _ (("    " : String).data.length)
    rw [List.drop_left]
    exact listStarts_self_append _ _
  have hge : 1 ≤ countOcc ("cube:observedBy <" ++ uri ++ ">").data
      (translateRaw SEL WB GB OB LO).data := by
    obtain ⟨tl, htl, htld⟩ := strJoin_cons_exists "\n"
      ("    cube:observedBy <" ++ uri ++ "> .")
      (((q.columns.filter (fun c => c.name ≠ "*")).map
        (fun c => column_to_pattern c.name)) ++ fl)
    have hWBd : WB.data = ("  ?observation a cube:Observation ;" :
        String).data ++ '\n' ::
        (("    cube:observedBy <" ++ uri ++ "> .").data ++ tl.data) := by
      rw [hWBdef]
      rw [show patternBlock uri q ++ fl =
        "  ?observation a cube:Observation ;" ::
          (("    cube:observedBy <" ++ uri ++ "> .") ::
          (((q.columns.filter (fun c => c.name ≠ "*")).map
            (fun c => column_to_pattern c.name)) ++ fl)) from rfl]
      rw [show strJoin "\n" ("  ?observation a cube:Observation ;" ::
          (("    cube:observedBy <" ++ uri ++ "> .") ::
          (((q.columns.filter (fun c => c.name ≠ "*")).map
            (fun c => column_to_pattern c.name)) ++ fl))) =
        "  ?observation a cube:Observation ;" ++ "\n" ++
          strJoin "\n" (("    cube:observedBy <" ++ uri ++ "> .") ::
          (((q.columns.filter (fun c => c.name ≠ "*")).map
            (fun c => column_to_pattern c.name)) ++ fl)) from rfl]
      rw [String.data_append, String.data_append, htld]
      simp [List.append_assoc]
    have hinWB : 1 ≤ countOcc ("cube:observedBy <" ++ uri ++ ">").data
        WB.data := by
      rw [hWBd]
      calc (1 : Nat)
          ≤ countOcc ("cube:observedBy <" ++ uri ++ ">").data
            ("    cube:observedBy <" ++ uri ++ "> .").data := hl2pos
        _ ≤ countOcc ("cube:observedBy <" ++ uri ++ ">").data
            (("    cube:observedBy <" ++ uri ++ "> .").data ++ tl.data) :=
            countOcc_le_append_right _ _ _
        _ ≤ countOcc ("cube:observedBy <" ++ uri ++ ">").data
            ('\n' :: (("    cube:observedBy <" ++ uri ++ "> .").data ++
              tl.data)) := countOcc_le_cons _ _ _
        _ ≤ _ := countOcc_le_append_left _ _ _
    have hsplitraw : (translateRaw SEL WB GB OB LO).data =
        (get_prefix_declarations ++ "\n\n" ++ SEL ++ "\nWHERE \x7b\n").data
          ++ (WB.data ++ ("\n\x7d\n" ++ GB ++ "\n" ++ OB ++ "\n" ++ LO ++
            "\n").data) := by
      rw [translateRaw]
      simp [String.data_append, List.append_assoc]
    rw [hsplitraw]
    have hA := countOcc_le_append_right ("cube:observedBy <" ++ uri ++ ">").data
      WB.data ("\n\x7d\n" ++ GB ++ "\n" ++ OB ++ "\n" ++ LO ++ "\n").data
    have hB := countOcc_le_append_left ("cube:observedBy <" ++ uri ++ ">").data
      (get_prefix_declarations ++ "\n\n" ++ SEL ++ "\nWHERE \x7b\n").data
      (WB.data ++ ("\n\x7d\n" ++ GB ++ "\n" ++ OB ++ "\n" ++ LO ++ "\n").data)
    omega
  have htot : countOcc ("cube:observedBy <" ++ uri ++ ">").data
      (translateRaw SEL WB GB OB LO).data = 1 := by omega
  -- the raw output begins with the non-whitespace character P
  have hPhead : get_prefix_declarations.data =
      'P' :: get_prefix_declarations.data.tail := rfl
  have hhead : (translateRaw SEL WB GB OB LO).data = 'P' ::
      ((((((((((get_prefix_declarations.data.tail ++ ("\n\n" : String).data)
        ++ SEL.data) ++ ("\nWHERE \x7b\n" : String).data) ++ WB.data) ++
        ("\n\x7d\n" : String).data) ++ GB.data) ++ ("\n" : String).data) ++
        OB.data) ++ ("\n" : String).data) ++ LO.data) ++
        ("\n" : String).data := by
    rw [translateRaw]
    have h1 := head_append_of_ne hPhead "\n\n"
    have h2 := head_append_of_ne h1 SEL
    have h3 := head_append_of_ne h2 "\nWHERE \x7b\n"
    have h4 := head_append_of_ne h3 WB
    have h5 := head_append_of_ne h4 "\n\x7d\n"
    have h6 := head_append_of_ne h5 GB
    have h7 := head_append_of_ne h6 "\n"
    have h8 := head_append_of_ne h7 OB
    have h9 := head_append_of_ne h8 "\n"
    have h10 := head_append_of_ne h9 LO
    have h11 := head_append_of_ne h10 "\n"
    rw [h11]
    simp [List.append_assoc]
  -- transfer the count through strip()
  have hstripcount : countOcc ("cube:observedBy <" ++ uri ++ ">").data
      (pyStrip (translateRaw SEL WB GB OB LO)).data = 1 := by
    rw [hanch]
    apply countOcc_pyStrip_eq_one2 hhead (by decide) (by decide)
    rw [← hanch]
    exact htot
  refine ⟨pyStrip (translateRaw SEL WB GB OB LO), htr, hstripcount, ?_⟩
  -- the three-tier resolution
  rw [ht, get_cube_uri] at huri
  rw [if_neg ht0] at huri
  cases hlk : cm.lookup t with
  | some u =>
    rw [hlk] at huri
    simp only [Except.ok.injEq] at huri
    exact huri.symm
  | none =>
    rw [hlk] at huri
    cases hsw : (pyStartswith t "http://" || pyStartswith t "https://") with
    | true =>
      rw [hsw] at huri
      simp only [if_true, Except.ok.injEq] at huri
      simp only [hsw, if_true]
      exact huri.symm
    | false =>
      rw [hsw] at huri
      simp only [Bool.false_eq_true, if_false, Except.ok.injEq] at huri
      simp only [hsw, Bool.false_eq_true, if_false]
      exact huri.symm

/-- Witness for C1 at a concrete input: `SELECT region FROM co2_emissions`
with an empty cube mapping resolves through the third tier (base path plus
table name) and the translation contains the anchor exactly once. -/
theorem c1_anchor_triple_exactly_once_witness :
    ∃ s, translate []
        { columns := [{ name := "region" }],
          table := some "co2_emissions" } = .ok s ∧
      countOcc ("cube:observedBy <" ++
        "https://environment.ld.admin.ch/foen/cube/co2_emissions" ++
        ">").data s.data = 1 ∧
      "https://environment.ld.admin.ch/foen/cube/co2_emissions" =
        (match ([] : List (String × String)).lookup "co2_emissions" with
          | some u => u
          | none =>
            if pyStartswith "co2_emissions" "http://" ||
                pyStartswith "co2_emissions" "https://" then "co2_emissions"
            else "https://environment.ld.admin.ch/foen/cube/" ++
              "co2_emissions") :=
  c1_anchor_triple_exactly_once []
    { columns := [{ name := "region" }], table := some "co2_emissions" }
    "co2_emissions" "https://environment.ld.admin.ch/foen/cube/co2_emissions"
    rfl (by decide) rfl (by decide)
    (by intro c hc
        simp only [List.mem_singleton] at hc
        subst hc
        exact ⟨by decide, fun x hx => Option.noConfusion hx⟩)
    (by intro w hw; exact absurd hw (List.not_mem_nil w))
    (by intro g hg; exact absurd hg (List.not_mem_nil g))
    (by intro o ho; exact absurd ho (List.not_mem_nil o))

end SqlSparql
